import Mathlib

/-!
# Framebuffer character driver (`drivers/video/fb.c`)

A shallow embedding of the file operations of the framebuffer character
driver, `fb_read`, `fb_write`, `fb_seek` and `fb_ioctl`, and of its
registration function `fb_register`.

## Integer model

The widths of `size_t`/`ssize_t`, `off_t` and `int` are fixed by platform
headers that are not part of the driver; they are the parameter `c_types`,
with an `off_t` that is not wider than `size_t` and at least 16 bits for
each type.  Every sum, difference and conversion of the file operations is
computed in its C type: `start + len` and `end - start` modulo
`2 ^ SIZE_BITS`, the results converted to `ssize_t`, `off_t` and `int` in
two's complement.

A state `fb_sys` holds a file position from 0 to `OFF_MAX` and a frame buffer
length of at most `OFF_MAX`, so that every offset into the frame buffer is a
file position; the transfer operations keep the position in that range
(`off_after_transfer`).  The seek offset is an `off_t`.  The request length
`len` is used in `start + len` only, which is computed modulo
`2 ^ SIZE_BITS`.

## Memory model

A pointer to a run of bytes is modelled by the run itself, a map from the
byte offset to the byte stored there.  `memcpy dest src n` is the run at
`dest` afterwards.  The memory the `ioctl` argument points into is kept as
one map per pointee type, indexed by the address passed in `arg`.

`DEBUGASSERT` and `ginfo`/`gerr` have no effect on the results and are left
out.
-/

namespace Fb

/-! ## Constants of the system headers (`OK`, errno values, `whence` values) -/

/-- The success return value `OK`. -/
def OK : Int := 0

/-- The errno value `ENOMEM`. -/
def ENOMEM : Int := 12

/-- The errno value `EINVAL`. -/
def EINVAL : Int := 22

/-- The errno value `ENOTTY`. -/
def ENOTTY : Int := 25

/-- The errno value `EFBIG`. -/
def EFBIG : Int := 27

/-- The `whence` value `SEEK_SET`. -/
def SEEK_SET : Int := 0

/-- The `whence` value `SEEK_CUR`. -/
def SEEK_CUR : Int := 1

/-- The `whence` value `SEEK_END`. -/
def SEEK_END : Int := 2

/-! ## The C integer types -/

/-- The widths in bits of the C integer types the driver computes in:
`size_t` and `ssize_t`, `off_t`, and `int`.  The file offset type is not
wider than `size_t`, and every type has the 16 bits C gives an `int` at
least, so that the error numbers the driver returns are values of each. -/
structure c_types where
  SIZE_BITS : Nat
  OFF_BITS : Nat
  INT_BITS : Nat
  off_min : 16 ≤ OFF_BITS
  off_le_size : OFF_BITS ≤ SIZE_BITS
  int_min : 16 ≤ INT_BITS

/-- Half the number of values of a type of `bits` bits: a signed type of
`bits` bits holds the numbers from `-half bits` to `half bits - 1`. -/
def half (bits : Nat) : Nat := 2 ^ (bits - 1)

/-- The greatest `size_t`. -/
def SIZE_MAX (m : c_types) : Nat := 2 ^ m.SIZE_BITS - 1

/-- The greatest `off_t`. -/
def OFF_MAX (m : c_types) : Nat := half m.OFF_BITS - 1

/-- The greatest `int`. -/
def INT_MAX (m : c_types) : Nat := half m.INT_BITS - 1

/-- The conversion to a signed type of `bits` bits, in two's complement. -/
def to_signed (bits : Nat) (x : Int) : Int :=
  if x % Int.ofNat (2 * half bits) < Int.ofNat (half bits) then
    x % Int.ofNat (2 * half bits)
  else
    x % Int.ofNat (2 * half bits) - Int.ofNat (2 * half bits)

/-- The conversion to `size_t`: the value modulo `2 ^ SIZE_BITS`. -/
def to_size_t (m : c_types) (x : Int) : Nat :=
  (x % Int.ofNat (2 ^ m.SIZE_BITS)).toNat

/-- The conversion to `ssize_t`. -/
def to_ssize_t (m : c_types) (x : Int) : Int := to_signed m.SIZE_BITS x

/-- The conversion to `int`. -/
def to_int (m : c_types) (x : Int) : Int := to_signed m.INT_BITS x

/-- A value of the type `off_t`. -/
structure off_t (m : c_types) where
  val : Int
  lo : -Int.ofNat (half m.OFF_BITS) ≤ val
  hi : val < Int.ofNat (half m.OFF_BITS)

/-- The conversion to `off_t`. -/
def to_off_t (m : c_types) (x : Int) : off_t m where
  val := to_signed m.OFF_BITS x
  lo := by
    have hh : 0 < half m.OFF_BITS := Nat.two_pow_pos _
    have hp : (0 : Int) < Int.ofNat (2 * half m.OFF_BITS) := by
      simp only [Int.ofNat_eq_coe]; omega
    have h1 := Int.emod_nonneg x (ne_of_gt hp)
    have h2 := Int.emod_lt_of_pos x hp
    unfold to_signed
    simp only [Int.ofNat_eq_coe] at *
    split_ifs <;> push_cast at * <;> omega
  hi := by
    have hh : 0 < half m.OFF_BITS := Nat.two_pow_pos _
    have hp : (0 : Int) < Int.ofNat (2 * half m.OFF_BITS) := by
      simp only [Int.ofNat_eq_coe]; omega
    have h1 := Int.emod_nonneg x (ne_of_gt hp)
    have h2 := Int.emod_lt_of_pos x hp
    unfold to_signed
    simp only [Int.ofNat_eq_coe] at *
    split_ifs <;> push_cast at * <;> omega

/-! ## Memory -/

/-- A run of bytes in memory, seen from its first byte. -/
abbrev bytes := Nat → UInt8

/-- The run at `dest` after `memcpy(dest, src, n)`: the first `n` bytes are
those of `src`, the rest is untouched. -/
def memcpy (dest src : bytes) (n : Nat) : bytes :=
  fun i => if i < n then src i else dest i

/-- A typed store `*(p) = v` into a map of cells indexed by address. -/
def store {α : Type} (m : Nat → α) (p : Nat) (v : α) : Nat → α :=
  fun a => if a = p then v else m a

/-! ## Types of `nuttx/video/fb.h` -/

/-- The fields of `struct fb_videoinfo_s` the driver uses. -/
structure fb_videoinfo_s where
  nplanes : Nat
  deriving DecidableEq, Repr

/-- The fields of `struct fb_planeinfo_s` the driver uses. -/
structure fb_planeinfo_s where
  fbmem : Nat
  fblen : Nat
  bpp : Nat
  deriving DecidableEq, Repr

/-- The structure types the driver only passes through to the virtual
device table. -/
structure fb_types where
  fb_cmap_s : Type
  fb_cursorattrib_s : Type
  fb_setcursor_s : Type
  nxgl_rect_s : Type

/-- The methods of `struct fb_vtable_s` the driver calls.  A method works on
the state `δ` behind the table and on the object its pointer argument
designates; it yields its `int` result, the object afterwards and the new
state. -/
structure fb_vtable_s (T : fb_types) (δ : Type) where
  getvideoinfo : δ → fb_videoinfo_s → Int × fb_videoinfo_s × δ
  getplaneinfo : δ → Nat → fb_planeinfo_s → Int × fb_planeinfo_s × δ
  getcmap : δ → T.fb_cmap_s → Int × T.fb_cmap_s × δ
  putcmap : δ → T.fb_cmap_s → Int × δ
  getcursor : δ → T.fb_cursorattrib_s → Int × T.fb_cursorattrib_s × δ
  setcursor : δ → T.fb_setcursor_s → Int × T.fb_setcursor_s × δ

/-! ## Private types -/

/-- The part of `struct file` the driver touches: the file position. -/
structure file where
  f_pos : Nat
  deriving DecidableEq, Repr

/-- One framebuffer device, `struct fb_chardev_s`.  `fbmem` is the address of
the start of the frame buffer memory. -/
structure fb_chardev_s (T : fb_types) (δ : Type) where
  vtable : fb_vtable_s T δ
  fbmem : Nat
  fblen : Nat
  plane : Nat
  bpp : Nat

/-- The memory an `ioctl` argument can point into, one map per pointee
type. -/
structure usermem (T : fb_types) where
  ppv : Nat → Nat
  vinfo : Nat → fb_videoinfo_s
  pinfo : Nat → fb_planeinfo_s
  cmap : Nat → T.fb_cmap_s
  attrib : Nat → T.fb_cursorattrib_s
  cursor : Nat → T.fb_setcursor_s
  rect : Nat → T.nxgl_rect_s

/-- Everything a file operation can reach from `filep`: the open file, the
device `filep->f_inode->i_private`, the bytes at `fb->fbmem`, the state
behind the virtual device table and the caller's memory.  The file position
is an `off_t` that is not negative, and the frame buffer is at most `OFF_MAX`
bytes long. -/
structure fb_sys (m : c_types) (T : fb_types) (δ : Type) where
  filep : file
  fb : fb_chardev_s T δ
  fbram : bytes
  hw : δ
  user : usermem T
  f_pos_le : filep.f_pos ≤ OFF_MAX m
  fblen_le : fb.fblen ≤ OFF_MAX m


/-- The command numbers of `nuttx/fs/ioctl.h` and `nuttx/video/fb.h`, which
are pairwise different. -/
structure fb_ioc where
  FIOC_MMAP : Int
  FBIOGET_VIDEOINFO : Int
  FBIOGET_PLANEINFO : Int
  FBIOGET_CMAP : Int
  FBIOPUT_CMAP : Int
  FBIOGET_CURSOR : Int
  FBIOPUT_CURSOR : Int
  FBIO_UPDATE : Int
  distinct : [FIOC_MMAP, FBIOGET_VIDEOINFO, FBIOGET_PLANEINFO, FBIOGET_CMAP,
    FBIOPUT_CMAP, FBIOGET_CURSOR, FBIOPUT_CURSOR, FBIO_UPDATE].Nodup

/-- What the driver is built against: the configuration switches, the command
numbers, the graphics hook `nx_notify_rectangle` and the indeterminate
initial contents of the automatic variable `pinfo` of `fb_ioctl`. -/
structure fb_env (T : fb_types) (δ : Type) where
  CONFIG_FB_CMAP : Bool
  CONFIG_FB_HWCURSOR : Bool
  CONFIG_NX_UPDATE : Bool
  ioc : fb_ioc
  nx_notify_rectangle : fb_planeinfo_s → T.nxgl_rect_s → δ → δ
  auto_pinfo : fb_planeinfo_s

variable {m : c_types} {T : fb_types} {δ : Type}

/-! ## File operations -/

/-- The state after the store `filep->f_pos = x` of an `off_t` that is not
negative (a negative `x` would be read back as 0; the driver stores none, see
`off_after_transfer` and the test in `fb_seek`). -/
def set_pos (s : fb_sys m T δ) (x : off_t m) : fb_sys m T δ :=
  { s with
    filep := { f_pos := x.val.toNat }
    f_pos_le := by
      have h := x.hi
      have hh : 0 < half m.OFF_BITS := Nat.two_pow_pos _
      unfold OFF_MAX
      simp only [Int.ofNat_eq_coe] at h
      show x.val.toNat ≤ half m.OFF_BITS - 1
      omega }

/-- The end of the transfer as `fb_read` and `fb_write` compute it from the
position `pos`, the request length and the frame buffer length: `pos + len`
in `size_t`, cut to the frame buffer length. -/
def xfer_end (m : c_types) (pos len fblen : Nat) : Nat :=
  if to_size_t m (Int.ofNat pos + Int.ofNat len) ≥ fblen then fblen
  else to_size_t m (Int.ofNat pos + Int.ofNat len)

/-- The size of the transfer as `fb_read` and `fb_write` compute it:
`end - start` in `size_t`. -/
def xfer_size (m : c_types) (pos len fblen : Nat) : Nat :=
  to_size_t m (Int.ofNat (xfer_end m pos len fblen) - Int.ofNat pos)

/-- The function `fb_read`: the result, the caller's buffer afterwards and
the state afterwards. -/
def fb_read (s : fb_sys m T δ) (buffer : bytes) (len : Nat) :
    Int × bytes × fb_sys m T δ :=
  let start := to_size_t m (Int.ofNat s.filep.f_pos)
  if start ≥ s.fb.fblen then
    (0, buffer, s)
  else
    let end0 := to_size_t m (Int.ofNat start + Int.ofNat len)
    let end1 := if end0 ≥ s.fb.fblen then s.fb.fblen else end0
    let size := to_size_t m (Int.ofNat end1 - Int.ofNat start)
    (to_ssize_t m (Int.ofNat size), memcpy buffer s.fbram size,
      set_pos s (to_off_t m (Int.ofNat s.filep.f_pos + Int.ofNat size)))

/-- The function `fb_write`: the result and the state afterwards. -/
def fb_write (s : fb_sys m T δ) (buffer : bytes) (len : Nat) :
    Int × fb_sys m T δ :=
  let start := to_size_t m (Int.ofNat s.filep.f_pos)
  if start ≥ s.fb.fblen then
    (-EFBIG, s)
  else
    let end0 := to_size_t m (Int.ofNat start + Int.ofNat len)
    let end1 := if end0 ≥ s.fb.fblen then s.fb.fblen else end0
    let size := to_size_t m (Int.ofNat end1 - Int.ofNat start)
    (to_ssize_t m (Int.ofNat size),
      set_pos { s with fbram := memcpy s.fbram buffer size }
        (to_off_t m (Int.ofNat s.filep.f_pos + Int.ofNat size)))

/-- The function `fb_seek`.  The new position is computed in `off_t`, a sum
outside the type wrapping in two's complement; on success it is returned
through the `int` variable `ret`. -/
def fb_seek (s : fb_sys m T δ) (offset : off_t m) (whence : Int) :
    Int × fb_sys m T δ :=
  let finish (newpos : off_t m) : Int × fb_sys m T δ :=
    if newpos.val ≥ 0 then
      ((to_off_t m (to_int m newpos.val)).val, set_pos s newpos)
    else
      (-EINVAL, s)
  if whence = SEEK_CUR then
    finish (to_off_t m (Int.ofNat s.filep.f_pos + offset.val))
  else if whence = SEEK_SET then
    finish offset
  else if whence = SEEK_END then
    finish (to_off_t m (Int.ofNat s.fb.fblen + offset.val))
  else
    (-EINVAL, s)

/-- The target `fb_seek` is asked for: `offset` for `SEEK_SET`, position plus
`offset` for `SEEK_CUR`, frame buffer length plus `offset` for `SEEK_END`. -/
def is_target (s : fb_sys m T δ) (offset whence target : Int) : Prop :=
  (whence = SEEK_SET ∧ target = offset) ∨
  (whence = SEEK_CUR ∧ target = Int.ofNat s.filep.f_pos + offset) ∨
  (whence = SEEK_END ∧ target = Int.ofNat s.fb.fblen + offset)

instance (s : fb_sys m T δ) (offset whence target : Int) :
    Decidable (is_target s offset whence target) := by
  unfold is_target; exact inferInstance

/-- The function `fb_ioctl`. -/
def fb_ioctl (e : fb_env T δ) (s : fb_sys m T δ) (cmd : Int) (arg : Nat) :
    Int × fb_sys m T δ :=
  if cmd = e.ioc.FIOC_MMAP then
    (OK, { s with user := { s.user with ppv := store s.user.ppv arg s.fb.fbmem } })
  else if cmd = e.ioc.FBIOGET_VIDEOINFO then
    let r := s.fb.vtable.getvideoinfo s.hw (s.user.vinfo arg)
    (r.1, { s with hw := r.2.2,
                   user := { s.user with vinfo := store s.user.vinfo arg r.2.1 } })
  else if cmd = e.ioc.FBIOGET_PLANEINFO then
    let r := s.fb.vtable.getplaneinfo s.hw s.fb.plane (s.user.pinfo arg)
    (r.1, { s with hw := r.2.2,
                   user := { s.user with pinfo := store s.user.pinfo arg r.2.1 } })
  else if e.CONFIG_FB_CMAP = true ∧ cmd = e.ioc.FBIOGET_CMAP then
    let r := s.fb.vtable.getcmap s.hw (s.user.cmap arg)
    (r.1, { s with hw := r.2.2,
                   user := { s.user with cmap := store s.user.cmap arg r.2.1 } })
  else if e.CONFIG_FB_CMAP = true ∧ cmd = e.ioc.FBIOPUT_CMAP then
    let r := s.fb.vtable.putcmap s.hw (s.user.cmap arg)
    (r.1, { s with hw := r.2 })
  else if e.CONFIG_FB_HWCURSOR = true ∧ cmd = e.ioc.FBIOGET_CURSOR then
    let r := s.fb.vtable.getcursor s.hw (s.user.attrib arg)
    (r.1, { s with hw := r.2.2,
                   user := { s.user with attrib := store s.user.attrib arg r.2.1 } })
  else if e.CONFIG_FB_HWCURSOR = true ∧ cmd = e.ioc.FBIOPUT_CURSOR then
    let r := s.fb.vtable.setcursor s.hw (s.user.cursor arg)
    (r.1, { s with hw := r.2.2,
                   user := { s.user with cursor := store s.user.cursor arg r.2.1 } })
  else if e.CONFIG_NX_UPDATE = true ∧ cmd = e.ioc.FBIO_UPDATE then
    let r := s.fb.vtable.getplaneinfo s.hw s.fb.plane e.auto_pinfo
    if r.1 ≥ 0 then
      (r.1, { s with hw := e.nx_notify_rectangle r.2.1 (s.user.rect arg) r.2.2 })
    else
      (r.1, { s with hw := r.2.2 })
  else
    (-ENOTTY, s)

/-- The commands `fb_ioctl` has a case for in the build `e`: the three
unconditional cases and the cases of the options the build switches on. -/
def recognised (e : fb_env T δ) (cmd : Int) : Prop :=
  cmd = e.ioc.FIOC_MMAP ∨ cmd = e.ioc.FBIOGET_VIDEOINFO ∨ cmd = e.ioc.FBIOGET_PLANEINFO ∨
  (e.CONFIG_FB_CMAP = true ∧ (cmd = e.ioc.FBIOGET_CMAP ∨ cmd = e.ioc.FBIOPUT_CMAP)) ∨
  (e.CONFIG_FB_HWCURSOR = true ∧ (cmd = e.ioc.FBIOGET_CURSOR ∨ cmd = e.ioc.FBIOPUT_CURSOR)) ∨
  (e.CONFIG_NX_UPDATE = true ∧ cmd = e.ioc.FBIO_UPDATE)

instance (e : fb_env T δ) (cmd : Int) : Decidable (recognised e cmd) := by
  unfold recognised; exact inferInstance

/-! ## A concrete device for evaluation -/

/-- The integer types of a 64-bit target: `size_t` and `off_t` of 64 bits,
`int` of 32 bits. -/
def lp64 : c_types where
  SIZE_BITS := 64
  OFF_BITS := 64
  INT_BITS := 32
  off_min := by decide
  off_le_size := by decide
  int_min := by decide

/-- Pass-through structure types without content. -/
def T0 : fb_types := ⟨Unit, Unit, Unit, Unit⟩

/-- A virtual device table over a call counter: every method counts the call;
`getvideoinfo` reports one plane and returns 0, `getplaneinfo` returns the
plane number it was given. -/
def vtable0 : fb_vtable_s T0 Nat where
  getvideoinfo := fun d _ => (0, ⟨1⟩, d + 1)
  getplaneinfo := fun d n _ => (Int.ofNat n, ⟨4096, 4, 8⟩, d + 1)
  getcmap := fun d c => (0, c, d + 1)
  putcmap := fun d _ => (0, d + 1)
  getcursor := fun d c => (0, c, d + 1)
  setcursor := fun d c => (0, c, d + 1)

/-- Caller memory holding zeros. -/
def user0 : usermem T0 where
  ppv := fun _ => 0
  vinfo := fun _ => ⟨0⟩
  pinfo := fun _ => ⟨0, 0, 0⟩
  cmap := fun _ => ()
  attrib := fun _ => ()
  cursor := fun _ => ()
  rect := fun _ => ()

/-- A device on the 64-bit target with a frame buffer of `fblen` bytes at
address 4096, plane 3, whose byte at offset `i` is `10 + i`, opened at
position `pos` (both cut to `OFF_MAX`). -/
def sys0 (fblen pos : Nat) : fb_sys lp64 T0 Nat where
  filep := { f_pos := min pos (OFF_MAX lp64) }
  fb := { vtable := vtable0, fbmem := 4096, fblen := min fblen (OFF_MAX lp64),
          plane := 3, bpp := 8 }
  fbram := fun i => UInt8.ofNat (10 + i)
  hw := 0
  user := user0
  f_pos_le := Nat.min_le_right _ _
  fblen_le := Nat.min_le_right _ _

/-- Caller data: the byte at offset `i` is `200 + i`. -/
def data0 : bytes := fun i => UInt8.ofNat (200 + i)

/-- Command numbers for evaluation. -/
def ioc0 : fb_ioc where
  FIOC_MMAP := 1
  FBIOGET_VIDEOINFO := 2
  FBIOGET_PLANEINFO := 3
  FBIOGET_CMAP := 4
  FBIOPUT_CMAP := 5
  FBIOGET_CURSOR := 6
  FBIOPUT_CURSOR := 7
  FBIO_UPDATE := 8
  distinct := by decide

/-- A build with every optional command switched off. -/
def env0 : fb_env T0 Nat where
  CONFIG_FB_CMAP := false
  CONFIG_FB_HWCURSOR := false
  CONFIG_NX_UPDATE := false
  ioc := ioc0
  nx_notify_rectangle := fun _ _ d => d
  auto_pinfo := ⟨0, 0, 0⟩

/-- Pass-through structure types that hold a number. -/
@[reducible] def T1 : fb_types := ⟨Nat, Nat, Nat, Nat⟩

/-- A virtual device table over a call counter whose optional methods can be
told apart: each returns a number of its own and changes the object it is
given. -/
def vtable1 : fb_vtable_s T1 Nat where
  getvideoinfo := fun d _ => (0, ⟨1⟩, d + 1)
  getplaneinfo := fun d n _ => (Int.ofNat n, ⟨4096, 4, 8⟩, d + 1)
  getcmap := fun d c => (7, c + 1, d + 1)
  putcmap := fun d c => (8, d + c)
  getcursor := fun d c => (9, c + 2, d + 1)
  setcursor := fun d c => (10, c + 3, d + 1)

/-- Caller memory whose pass-through objects hold their own address. -/
def user1 : usermem T1 where
  ppv := fun _ => 0
  vinfo := fun _ => ⟨0⟩
  pinfo := fun _ => ⟨0, 0, 0⟩
  cmap := fun a => a
  attrib := fun a => a
  cursor := fun a => a
  rect := fun a => a

/-- A device on the 64-bit target like `sys0 1024 7` over the table
`vtable1`. -/
def sys1 : fb_sys lp64 T1 Nat where
  filep := { f_pos := 7 }
  fb := { vtable := vtable1, fbmem := 4096, fblen := 1024, plane := 3, bpp := 8 }
  fbram := fun i => UInt8.ofNat (10 + i)
  hw := 0
  user := user1
  f_pos_le := by decide
  fblen_le := by decide

/-- A build with every optional command switched on, whose
`nx_notify_rectangle` adds 1000 and the rectangle to the call counter. -/
def env1 : fb_env T1 Nat where
  CONFIG_FB_CMAP := true
  CONFIG_FB_HWCURSOR := true
  CONFIG_NX_UPDATE := true
  ioc := ioc0
  nx_notify_rectangle := fun _ r d => d + 1000 + r
  auto_pinfo := ⟨0, 0, 0⟩

/-! ## Registration (`fb_register`) -/

/-- The characters the conversion `%d` produces for an `int`. -/
def fmt_d : Int → List Char
  | Int.ofNat n => Nat.toDigits 10 n
  | Int.negSucc n => '-' :: Nat.toDigits 10 (n + 1)

/-- The string left in `buf` by `snprintf(buf, size, ...)` when the format
expands to `text`: its first `size - 1` characters (the last byte of the
buffer holds the terminator). -/
def snprintf (size : Nat) (text : List Char) : List Char :=
  text.take (size - 1)

/-- The run at `s` after `memset(s, c, n)`. -/
def memset (s : bytes) (c : UInt8) (n : Nat) : bytes :=
  fun i => if i < n then c else s i

/-- The device name `fb_register` builds in `char devname[16]`. -/
def fb_devname (nplanes : Nat) (display : Int) (plane : Nat) : List Char :=
  if nplanes < 2 then
    snprintf 16 ("/dev/fb".toList ++ fmt_d display)
  else
    snprintf 16 ("/dev/fb".toList ++ fmt_d display ++ '-' :: fmt_d (Int.ofNat plane))

/-- The device name as the description of `fb_register` gives it, in full:
`/dev/fbN` for a single plane and `/dev/fbN-M` for two or more planes, `N`
the display number and `M` the plane in decimal. -/
def spec_devname (nplanes : Nat) (display : Int) (plane : Nat) : List Char :=
  if nplanes < 2 then
    "/dev/fb".toList ++ fmt_d display
  else
    "/dev/fb".toList ++ fmt_d display ++ '-' :: fmt_d (Int.ofNat plane)

/-- The services `fb_register` calls, over the state `δ` of the display
hardware and the state `κ` of the kernel (heap and driver namespace).
`kmm_zalloc` tells whether it returned memory; `up_fbgetvplane` yields the
table or nothing for `NULL`; `register_driver` gets the name and the device
(the operations table `fb_fops` and the mode `0666` are the same in every
call).  `auto_vinfo` and `auto_pinfo` are the indeterminate initial contents
of the automatic variables `vinfo` and `pinfo`. -/
structure fb_kernel (T : fb_types) (δ κ : Type) where
  kmm_zalloc : κ → Bool × κ
  kmm_free : κ → κ
  up_fbinitialize : Int → δ → Int × δ
  up_fbgetvplane : Int → Nat → δ → Option (fb_vtable_s T δ) × δ
  register_driver : List Char → fb_chardev_s T δ → κ → Int × κ
  auto_vinfo : fb_videoinfo_s
  auto_pinfo : fb_planeinfo_s

/-- What `fb_register` works on: the display hardware, the kernel and the
memory, which maps an address to the run of bytes that starts there. -/
structure fb_world (δ κ : Type) where
  hw : δ
  os : κ
  ram : Nat → bytes

/-- The function `fb_register`.  The plane number is a natural number: the
function asserts `(unsigned)plane <= UINT8_MAX`; the store to the `uint8_t`
field `fb->plane` keeps it modulo 256. -/
def fb_register {κ : Type} (k : fb_kernel T δ κ) (display : Int) (plane : Nat)
    (w : fb_world δ κ) : Int × fb_world δ κ :=
  let a := k.kmm_zalloc w.os
  if a.1 = false then
    (-ENOMEM, { w with os := a.2 })
  else
    let i := k.up_fbinitialize display w.hw
    if i.1 < 0 then
      (i.1, { w with hw := i.2, os := k.kmm_free a.2 })
    else
      let g := k.up_fbgetvplane display plane i.2
      match g.1 with
      | none => (i.1, { w with hw := g.2, os := k.kmm_free a.2 })
      | some vtable =>
        let v := vtable.getvideoinfo g.2 k.auto_vinfo
        if v.1 < 0 then
          (v.1, { w with hw := v.2.2, os := k.kmm_free a.2 })
        else
          let nplanes := v.2.1.nplanes
          let p := vtable.getplaneinfo v.2.2 plane k.auto_pinfo
          if p.1 < 0 then
            (p.1, { w with hw := p.2.2, os := k.kmm_free a.2 })
          else
            let fb : fb_chardev_s T δ :=
              { vtable := vtable, fbmem := p.2.1.fbmem, fblen := p.2.1.fblen,
                plane := plane % 256, bpp := p.2.1.bpp }
            let ram := store w.ram p.2.1.fbmem (memset (w.ram p.2.1.fbmem) 0 p.2.1.fblen)
            let devname := fb_devname nplanes display plane
            let r := k.register_driver devname fb a.2
            if r.1 < 0 then
              (r.1, { hw := p.2.2, os := k.kmm_free r.2, ram := ram })
            else
              (OK, { hw := p.2.2, os := r.2, ram := ram })

/-! ## A concrete kernel for evaluation -/

/-- A kernel state: the number of live allocations and the names in the
driver namespace. -/
structure os0 where
  live : Nat
  drivers : List (List Char)
  deriving DecidableEq, Repr

/-- A virtual device table that reports `n` planes and a 4 byte frame buffer
at address 4096; both methods return 0. -/
def vtable_n (n : Nat) : fb_vtable_s T0 Nat where
  getvideoinfo := fun d _ => (0, ⟨n⟩, d + 1)
  getplaneinfo := fun d _ _ => (0, ⟨4096, 4, 8⟩, d + 1)
  getcmap := fun d c => (0, c, d + 1)
  putcmap := fun d _ => (0, d + 1)
  getcursor := fun d c => (0, c, d + 1)
  setcursor := fun d c => (0, c, d + 1)

/-- A kernel whose allocator and `up_fbinitialize` succeed, whose
`up_fbgetvplane` yields `vt`, and whose `register_driver` refuses a name
that is taken with `-EEXIST` (17) and otherwise adds the name and
returns 0. -/
def kernel0 (vt : Option (fb_vtable_s T0 Nat)) : fb_kernel T0 Nat os0 where
  kmm_zalloc := fun o => (true, { o with live := o.live + 1 })
  kmm_free := fun o => { o with live := o.live - 1 }
  up_fbinitialize := fun _ d => (0, d)
  up_fbgetvplane := fun _ _ d => (vt, d)
  register_driver := fun name _ o =>
    if name ∈ o.drivers then (-17, o) else (0, { o with drivers := o.drivers ++ [name] })
  auto_vinfo := ⟨0⟩
  auto_pinfo := ⟨0, 0, 0⟩

/-- A world with no driver registered and nothing allocated. -/
def world0 : fb_world Nat os0 where
  hw := 0
  os := { live := 0, drivers := [] }
  ram := fun _ _ => 255

end Fb

/-! # MAC callback registry (`wireless/ieee802154/mac802154.h`) -/

namespace Mac802154

/-- The callback record `struct mac802154_maccb_s`: the priority `prio` and
the two callback methods, over the notification type `ν`, the frame
indication type `ι` and the state `σ` of the layer above.  The link `flink`
is the order of the records in a list. -/
structure mac802154_maccb_s (ν ι σ : Type) where
  prio : Nat
  notify : ν → σ → σ
  rxframe : ι → σ → Int × σ

/-- Modelled from the spec: the callback registry behind a `MACHANDLE`, whose
type is not among the sources; the specification describes it as an ordered
collection of bound callback records. -/
abbrev MACHANDLE (ν ι σ : Type) := List (mac802154_maccb_s ν ι σ)

/-- Modelled from the spec: the insertion `mac802154_bind` performs, whose
body is not among the sources; the specification has the record inserted
ordered ascending by priority, equal-priority records preserving insertion
order: the new record goes in front of the first record of a greater
priority. -/
def maccb_insert {ν ι σ : Type} (cb : mac802154_maccb_s ν ι σ) :
    MACHANDLE ν ι σ → MACHANDLE ν ι σ
  | [] => [cb]
  | x :: rest =>
    if cb.prio < x.prio then cb :: x :: rest else x :: maccb_insert cb rest

/-- Modelled from the spec: `mac802154_bind`, declared in the header, whose
body is not among the sources; it binds the record as `maccb_insert` does and
returns `OK`. -/
def mac802154_bind {ν ι σ : Type} (mac : MACHANDLE ν ι σ)
    (cb : mac802154_maccb_s ν ι σ) : Int × MACHANDLE ν ι σ :=
  (0, maccb_insert cb mac)

/-- The registry after a sequence of `mac802154_bind` calls on an empty
registry, the records given in bind order. -/
def bind_all {ν ι σ : Type} (cbs : List (mac802154_maccb_s ν ι σ)) :
    MACHANDLE ν ι σ :=
  cbs.foldl (fun mac cb => (mac802154_bind mac cb).2) []

/-- Modelled from the spec: the broadcast dispatch of an event, whose body is
not among the sources; the specification has it iterate the bound records in
registry order and invoke `notify` of every record with the payload. -/
def dispatch_event {ν ι σ : Type} (mac : MACHANDLE ν ι σ) (notif : ν) (st : σ) : σ :=
  mac.foldl (fun s cb => cb.notify notif s) st

/-- A consumer that records its invocation: the record of the consumer `c`,
a name with a priority, has the priority `c.2` and a `notify` that appends
`c` to the log of invocations. -/
def logger {α : Type} (c : α × Nat) : mac802154_maccb_s Unit Unit (List (α × Nat)) where
  prio := c.2
  notify := fun _ log => log ++ [c]
  rxframe := fun _ log => (0, log)

end Mac802154


namespace Fb

variable {m : c_types} {T : fb_types} {δ : Type}

/-! ## Arithmetic of the C integer types -/

/-- A signed type has at least the value 0. -/
theorem half_pos (bits : Nat) : 0 < half bits := Nat.two_pow_pos _

/-- A type of `bits` bits has `2 * half bits` values. -/
theorem two_half (bits : Nat) (h : 0 < bits) : 2 * half bits = 2 ^ bits := by
  obtain ⟨k, rfl⟩ : ∃ k, bits = k + 1 := ⟨bits - 1, by omega⟩
  simp [half, pow_succ, Nat.mul_comm]

/-- The number of `size_t` values is a multiple of the number of `off_t`
values. -/
theorem size_eq_mul_off (m : c_types) :
    2 ^ m.SIZE_BITS = 2 ^ (m.SIZE_BITS - m.OFF_BITS) * (2 * half m.OFF_BITS) := by
  rw [two_half m.OFF_BITS (by have := m.off_min; omega), ← pow_add]
  congr 1
  have := m.off_le_size
  omega

/-- Every `off_t` that is not negative is a `size_t`. -/
theorem off_max_lt_size (m : c_types) : OFF_MAX m < 2 ^ m.SIZE_BITS := by
  have h1 := size_eq_mul_off m
  have h2 := half_pos m.OFF_BITS
  have h3 : 0 < 2 ^ (m.SIZE_BITS - m.OFF_BITS) := Nat.two_pow_pos _
  have h4 : 2 * half m.OFF_BITS ≤ 2 ^ m.SIZE_BITS := by
    rw [h1]; exact Nat.le_mul_of_pos_left _ h3
  unfold OFF_MAX
  omega

/-- A negative number above `-B` is `B` more modulo `B`. -/
theorem emod_of_neg (x : Int) (B : Nat) (h1 : 0 ≤ x + B) (h2 : x < 0) :
    x % (B : Int) = x + B := by
  have e : x % (B : Int) = (x + 1 * (B : Int)) % (B : Int) :=
    (Int.add_mul_emod_self).symm
  rw [e, Int.one_mul]
  exact Int.emod_eq_of_lt h1 (by omega)

/-- The conversion to a signed type keeps a number of the type. -/
theorem to_signed_of_range (bits : Nat) (x : Int) (hlo : -(half bits : Int) ≤ x)
    (hhi : x < (half bits : Int)) : to_signed bits x = x := by
  have hh := half_pos bits
  unfold to_signed
  simp only [Int.ofNat_eq_coe]
  by_cases hx : 0 ≤ x
  · have e : x % ((2 * half bits : Nat) : Int) = x :=
      Int.emod_eq_of_lt hx (by push_cast; omega)
    rw [e, if_pos hhi]
  · have e : x % ((2 * half bits : Nat) : Int) = x + ((2 * half bits : Nat) : Int) :=
      emod_of_neg x (2 * half bits) (by push_cast; omega) (by omega)
    rw [e, if_neg (by push_cast; omega)]
    omega

/-- The conversion to `size_t` keeps a number below `2 ^ SIZE_BITS`. -/
theorem to_size_t_of_lt (m : c_types) (n : Nat) (h : n < 2 ^ m.SIZE_BITS) :
    to_size_t m (Int.ofNat n) = n := by
  unfold to_size_t
  simp only [Int.ofNat_eq_coe]
  rw [← Int.ofNat_emod, Int.toNat_ofNat, Nat.mod_eq_of_lt h]

/-- The conversion to `size_t` of a sum of two numbers that does not wrap. -/
theorem to_size_t_add (m : c_types) (a b : Nat) (h : a + b < 2 ^ m.SIZE_BITS) :
    to_size_t m (Int.ofNat a + Int.ofNat b) = a + b := by
  have e : Int.ofNat a + Int.ofNat b = Int.ofNat (a + b) := by
    simp only [Int.ofNat_eq_coe]; push_cast; rfl
  rw [e, to_size_t_of_lt m (a + b) h]

/-- The conversion to `size_t` of a difference: the difference itself when
it is not negative, `2 ^ SIZE_BITS` more when it is negative. -/
theorem to_size_t_sub (m : c_types) (a b : Nat) (ha : a < 2 ^ m.SIZE_BITS)
    (hb : b < 2 ^ m.SIZE_BITS) :
    to_size_t m (Int.ofNat a - Int.ofNat b)
      = if b ≤ a then a - b else a + 2 ^ m.SIZE_BITS - b := by
  unfold to_size_t
  simp only [Int.ofNat_eq_coe]
  split_ifs with hba
  · have e : ((a : Int) - (b : Int)) % ((2 ^ m.SIZE_BITS : Nat) : Int) = (a : Int) - b :=
      Int.emod_eq_of_lt (by omega) (by omega)
    rw [e]; omega
  · have e : ((a : Int) - (b : Int)) % ((2 ^ m.SIZE_BITS : Nat) : Int)
        = (a : Int) - b + ((2 ^ m.SIZE_BITS : Nat) : Int) :=
      emod_of_neg _ _ (by omega) (by omega)
    rw [e]; omega

/-- The file position of a state is a `size_t`: the conversion
`start = filep->f_pos` keeps it. -/
theorem to_size_t_pos (s : fb_sys m T δ) :
    to_size_t m (Int.ofNat s.filep.f_pos) = s.filep.f_pos :=
  to_size_t_of_lt m _ (Nat.lt_of_le_of_lt s.f_pos_le (off_max_lt_size m))

/-- The conversion to `off_t` keeps a number from 0 to `OFF_MAX`. -/
theorem to_off_t_of_le (m : c_types) (n : Nat) (h : n ≤ OFF_MAX m) :
    (to_off_t m (Int.ofNat n)).val = Int.ofNat n := by
  have hh := half_pos m.OFF_BITS
  unfold OFF_MAX at h
  show to_signed m.OFF_BITS (Int.ofNat n) = Int.ofNat n
  apply to_signed_of_range
  · simp only [Int.ofNat_eq_coe]; omega
  · simp only [Int.ofNat_eq_coe]; omega

/-- A transfer whose `start + len` does not wrap: the size is the smaller of
the request and what is left of the frame buffer, it is a non-negative
`ssize_t`, and the end is the position plus the size. -/
theorem xfer_no_wrap (m : c_types) (pos len fblen : Nat) (h : pos < fblen)
    (hfb : fblen ≤ OFF_MAX m) (hlen : pos + len ≤ SIZE_MAX m) :
    xfer_size m pos len fblen = min len (fblen - pos) ∧
    xfer_end m pos len fblen = pos + min len (fblen - pos) ∧
    to_ssize_t m (Int.ofNat (min len (fblen - pos))) = Int.ofNat (min len (fblen - pos)) := by
  have hlt := off_max_lt_size m
  have hp : 0 < 2 ^ m.SIZE_BITS := Nat.two_pow_pos _
  unfold SIZE_MAX at hlen
  have hadd : to_size_t m (Int.ofNat pos + Int.ofNat len) = pos + len :=
    to_size_t_add m pos len (by omega)
  have hend : xfer_end m pos len fblen = pos + min len (fblen - pos) := by
    unfold xfer_end
    rw [hadd]
    split_ifs with hge
    · rw [Nat.min_eq_right (by omega)]; omega
    · rw [Nat.min_eq_left (by omega)]
  have hsize : xfer_size m pos len fblen = min len (fblen - pos) := by
    unfold xfer_size
    rw [hend, to_size_t_sub m _ _ (by omega) (by omega), if_pos (by omega)]
    omega
  refine ⟨hsize, hend, ?_⟩
  have hmin : min len (fblen - pos) ≤ fblen - pos := Nat.min_le_right _ _
  have hs := size_eq_mul_off m
  have hk : 0 < 2 ^ (m.SIZE_BITS - m.OFF_BITS) := Nat.two_pow_pos _
  have hso : half m.OFF_BITS ≤ half m.SIZE_BITS := by
    unfold half
    exact Nat.pow_le_pow_right (by decide) (by have := m.off_le_size; omega)
  unfold OFF_MAX at hfb
  have hh := half_pos m.OFF_BITS
  show to_signed m.SIZE_BITS _ = _
  apply to_signed_of_range
  · simp only [Int.ofNat_eq_coe]; omega
  · simp only [Int.ofNat_eq_coe]; omega

/-! ## Transfer size -/

/-- The function `fb_read` at a position below the frame buffer length. -/
theorem fb_read_below (s : fb_sys m T δ) (buffer : bytes) (len : Nat)
    (h : s.filep.f_pos < s.fb.fblen) :
    fb_read s buffer len =
      (to_ssize_t m (Int.ofNat (xfer_size m s.filep.f_pos len s.fb.fblen)),
       memcpy buffer s.fbram (xfer_size m s.filep.f_pos len s.fb.fblen),
       set_pos s (to_off_t m (Int.ofNat s.filep.f_pos
         + Int.ofNat (xfer_size m s.filep.f_pos len s.fb.fblen)))) := by
  have hn : ¬ s.filep.f_pos ≥ s.fb.fblen := by omega
  unfold fb_read
  simp only [to_size_t_pos, if_neg hn]
  rfl

/-- The function `fb_write` at a position below the frame buffer length. -/
theorem fb_write_below (s : fb_sys m T δ) (buffer : bytes) (len : Nat)
    (h : s.filep.f_pos < s.fb.fblen) :
    fb_write s buffer len =
      (to_ssize_t m (Int.ofNat (xfer_size m s.filep.f_pos len s.fb.fblen)),
       set_pos
         { s with fbram := memcpy s.fbram buffer (xfer_size m s.filep.f_pos len s.fb.fblen) }
         (to_off_t m (Int.ofNat s.filep.f_pos
           + Int.ofNat (xfer_size m s.filep.f_pos len s.fb.fblen)))) := by
  have hn : ¬ s.filep.f_pos ≥ s.fb.fblen := by omega
  unfold fb_write
  simp only [to_size_t_pos, if_neg hn]
  rfl

/-- What `fb_read` stores: byte `i` of the caller's buffer, for `i` below the
transfer size, is byte `i` of the frame buffer, whatever the position. -/
theorem fb_read_buffer (s : fb_sys m T δ) (buffer : bytes) (len i : Nat)
    (h : s.filep.f_pos < s.fb.fblen)
    (hi : i < xfer_size m s.filep.f_pos len s.fb.fblen) :
    (fb_read s buffer len).2.1 i = s.fbram i := by
  rw [fb_read_below s buffer len h]
  simp only [memcpy, if_pos hi]

/-- What `fb_write` stores: byte `i` of the frame buffer, for `i` below the
transfer size, becomes byte `i` of the data, whatever the position, and the
bytes from the transfer size on are kept. -/
theorem fb_write_fbram (s : fb_sys m T δ) (buffer : bytes) (len i : Nat)
    (h : s.filep.f_pos < s.fb.fblen) :
    (fb_write s buffer len).2.fbram i
      = if i < xfer_size m s.filep.f_pos len s.fb.fblen then buffer i else s.fbram i := by
  rw [fb_write_below s buffer len h]
  rfl

/-- C3, evaluated at a failing input: a 2 byte read at position 2 of the
4 byte frame buffer `10 11 12 13` returns 2 and stores `10 11`, the bytes at
offsets 0 and 1, while the bytes at the position are `12 13`. -/
theorem fb_read_ignores_position :
    (fb_read (sys0 4 2) data0 2).1 = 2 ∧
    (fb_read (sys0 4 2) data0 2).2.1 0 = 10 ∧
    (fb_read (sys0 4 2) data0 2).2.1 1 = 11 ∧
    (sys0 4 2).fbram (2 + 0) = 12 ∧
    (sys0 4 2).fbram (2 + 1) = 13 ∧
    (fb_read (sys0 4 2) data0 2).2.1 0 ≠ (sys0 4 2).fbram (2 + 0) := by
  decide

/-- C4, evaluated at a failing input: writing the 2 bytes `200 201` at
position 2 of the 4 byte frame buffer `10 11 12 13` returns 2 and leaves the
frame buffer `200 201 12 13`: offsets 0 and 1, outside the range of the
position, are overwritten and offsets 2 and 3 keep their bytes. -/
theorem fb_write_ignores_position :
    (fb_write (sys0 4 2) data0 2).1 = 2 ∧
    (fb_write (sys0 4 2) data0 2).2.fbram 0 = 200 ∧
    (fb_write (sys0 4 2) data0 2).2.fbram 1 = 201 ∧
    (fb_write (sys0 4 2) data0 2).2.fbram 2 = 12 ∧
    (fb_write (sys0 4 2) data0 2).2.fbram 3 = 13 ∧
    (fb_write (sys0 4 2) data0 2).2.fbram (2 + 0) ≠ data0 0 ∧
    (fb_write (sys0 4 2) data0 2).2.fbram 0 ≠ (sys0 4 2).fbram 0 := by
  decide

/-! ## Transfers at or past the end -/

/-- C5: at a position at or past the frame buffer length, `fb_read` returns 0
and leaves the file position unchanged (the whole state and the caller's
buffer are untouched). -/
theorem fb_read_eof (s : fb_sys m T δ) (buffer : bytes) (len : Nat)
    (h : s.filep.f_pos ≥ s.fb.fblen) :
    (fb_read s buffer len).1 = 0 ∧
    (fb_read s buffer len).2.2.filep.f_pos = s.filep.f_pos ∧
    (fb_read s buffer len).2.2 = s ∧
    (fb_read s buffer len).2.1 = buffer := by
  unfold fb_read
  simp only [to_size_t_pos, if_pos h]
  exact ⟨trivial, trivial, trivial, trivial⟩

/-- Witness of C5: reads at the end and past the end of a 1024 byte frame
buffer. -/
theorem fb_read_eof_witness :
    (sys0 1024 1030).filep.f_pos ≥ (sys0 1024 1030).fb.fblen ∧
    (fb_read (sys0 1024 1030) data0 16).1 = 0 ∧
    (fb_read (sys0 1024 1030) data0 16).2.2.filep.f_pos = 1030 :=
  ⟨by decide,
   (fb_read_eof (sys0 1024 1030) data0 16 (by decide)).1,
   (fb_read_eof (sys0 1024 1030) data0 16 (by decide)).2.1⟩

/-- C6: at a position at or past the frame buffer length, `fb_write` returns
`-EFBIG` for every requested length and leaves the file position and the
frame buffer contents unchanged (the whole state is untouched). -/
theorem fb_write_efbig (s : fb_sys m T δ) (buffer : bytes) (len : Nat)
    (h : s.filep.f_pos ≥ s.fb.fblen) :
    (fb_write s buffer len).1 = -EFBIG ∧
    (fb_write s buffer len).2.filep.f_pos = s.filep.f_pos ∧
    (fb_write s buffer len).2.fbram = s.fbram ∧
    (fb_write s buffer len).2 = s := by
  unfold fb_write
  simp only [to_size_t_pos, if_pos h]
  exact ⟨trivial, trivial, trivial, trivial⟩

/-- Witness of C6: a write of length 0 at the end of a 1024 byte frame
buffer. -/
theorem fb_write_efbig_witness :
    (sys0 1024 1024).filep.f_pos ≥ (sys0 1024 1024).fb.fblen ∧
    (fb_write (sys0 1024 1024) data0 0).1 = -27 ∧
    (fb_write (sys0 1024 1024) data0 0).2.filep.f_pos = 1024 :=
  ⟨by decide,
   (fb_write_efbig (sys0 1024 1024) data0 0 (by decide)).1,
   (fb_write_efbig (sys0 1024 1024) data0 0 (by decide)).2.1⟩

/-- Two `off_t` with the same value are the same. -/
theorem off_t_ext (x y : off_t m) (h : x.val = y.val) : x = y := by
  cases x; cases y; cases h; rfl

/-- The conversion to `off_t` keeps an `off_t`. -/
theorem to_off_t_val (x : off_t m) : to_off_t m x.val = x := by
  apply off_t_ext
  show to_signed m.OFF_BITS x.val = x.val
  have h1 := x.lo
  have h2 := x.hi
  simp only [Int.ofNat_eq_coe] at h1 h2
  exact to_signed_of_range _ _ h1 h2

/-- What `fb_seek` does with the target of one of the three `whence` values:
it converts the target to `off_t` and goes through the common tail of the
function. -/
theorem fb_seek_of_target (s : fb_sys m T δ) (offset : off_t m) (whence target : Int)
    (ht : is_target s offset.val whence target) :
    fb_seek s offset whence =
      if (to_off_t m target).val ≥ 0 then
        ((to_off_t m (to_int m (to_off_t m target).val)).val, set_pos s (to_off_t m target))
      else (-EINVAL, s) := by
  rcases ht with ⟨hw, rfl⟩ | ⟨hw, rfl⟩ | ⟨hw, rfl⟩ <;> subst hw
  · rw [to_off_t_val]
    simp [fb_seek, SEEK_SET, SEEK_CUR]
  · simp [fb_seek, SEEK_CUR]
  · simp [fb_seek, SEEK_SET, SEEK_CUR, SEEK_END]

/-- The target of a seek is at least the least `off_t`: the position and the
frame buffer length are not negative and the offset is an `off_t`. -/
theorem target_ge (s : fb_sys m T δ) (offset : off_t m) (whence target : Int)
    (ht : is_target s offset.val whence target) :
    -(half m.OFF_BITS : Int) ≤ target := by
  have h1 := offset.lo
  simp only [Int.ofNat_eq_coe] at h1
  rcases ht with ⟨-, rfl⟩ | ⟨-, rfl⟩ | ⟨-, rfl⟩
  · exact h1
  · simp only [Int.ofNat_eq_coe]; omega
  · simp only [Int.ofNat_eq_coe]; omega

/-- C8: for `SEEK_SET`, `SEEK_CUR` and `SEEK_END`, when the resulting offset
is negative `fb_seek` returns `-EINVAL` and leaves the file position
unchanged (the whole state is untouched). -/
theorem fb_seek_negative (s : fb_sys m T δ) (offset : off_t m) (whence target : Int)
    (ht : is_target s offset.val whence target) (hneg : target < 0) :
    (fb_seek s offset whence).1 = -EINVAL ∧
    (fb_seek s offset whence).2.filep.f_pos = s.filep.f_pos ∧
    (fb_seek s offset whence).2 = s := by
  have hlo := target_ge s offset whence target ht
  have hh := half_pos m.OFF_BITS
  have hv : (to_off_t m target).val = target :=
    to_signed_of_range _ _ hlo (by omega)
  have hn : ¬ (to_off_t m target).val ≥ 0 := by rw [hv]; omega
  rw [fb_seek_of_target s offset whence target ht, if_neg hn]
  exact ⟨rfl, rfl, rfl⟩

/-- Witness of C8: seeking 6 bytes back from position 5 with `SEEK_CUR`. -/
theorem fb_seek_negative_witness :
    (fb_seek (sys0 1024 5) (to_off_t lp64 (-6)) SEEK_CUR).1 = -22 ∧
    (fb_seek (sys0 1024 5) (to_off_t lp64 (-6)) SEEK_CUR).2.filep.f_pos = 5 :=
  ⟨(fb_seek_negative (sys0 1024 5) (to_off_t lp64 (-6)) SEEK_CUR (-1)
      (Or.inr (Or.inl ⟨rfl, by decide⟩)) (by decide)).1,
   (fb_seek_negative (sys0 1024 5) (to_off_t lp64 (-6)) SEEK_CUR (-1)
      (Or.inr (Or.inl ⟨rfl, by decide⟩)) (by decide)).2.1⟩

/-- C9, refuted at concrete inputs: on the 64-bit target, whose `int` has 32
bits, `SEEK_SET` with the offset `2 ^ 31` sets the position to `2 ^ 31` but
returns `-2 ^ 31`, the target cut to an `int`; and at the position `OFF_MAX`
a `SEEK_CUR` with the offset 1, whose target `OFF_MAX + 1` is not negative,
returns `-EINVAL`. -/
theorem fb_seek_result_cut :
    is_target (sys0 1024 5) (to_off_t lp64 (2 ^ 31)).val SEEK_SET (2 ^ 31) ∧
    (fb_seek (sys0 1024 5) (to_off_t lp64 (2 ^ 31)) SEEK_SET).2.filep.f_pos = 2 ^ 31 ∧
    (fb_seek (sys0 1024 5) (to_off_t lp64 (2 ^ 31)) SEEK_SET).1 = -2 ^ 31 ∧
    (fb_seek (sys0 1024 5) (to_off_t lp64 (2 ^ 31)) SEEK_SET).1 ≠ 2 ^ 31 ∧
    is_target (sys0 1024 (OFF_MAX lp64)) (to_off_t lp64 1).val SEEK_CUR (2 ^ 63) ∧
    (fb_seek (sys0 1024 (OFF_MAX lp64)) (to_off_t lp64 1) SEEK_CUR).1 = -EINVAL := by
  decide

/-- C9, amended: for `SEEK_SET`, `SEEK_CUR` and `SEEK_END`, in a state whose
frame buffer length is at most `OFF_MAX`, when the target is not negative
and at most `OFF_MAX`, `fb_seek` sets the file position to the target,
whether or not the target exceeds the frame buffer length, and returns the
target if that is at most `INT_MAX`; the device (so the frame buffer
length), the frame buffer contents and the rest of the state stay as they
were. -/
theorem fb_seek_sets_position (s : fb_sys m T δ) (offset : off_t m) (whence target : Int)
    (ht : is_target s offset.val whence target) (hpos : 0 ≤ target)
    (hoff : target ≤ Int.ofNat (OFF_MAX m)) :
    (target ≤ Int.ofNat (INT_MAX m) → (fb_seek s offset whence).1 = target) ∧
    Int.ofNat (fb_seek s offset whence).2.filep.f_pos = target ∧
    (fb_seek s offset whence).2.fb.fblen = s.fb.fblen ∧
    ((fb_seek s offset whence).2.fb = s.fb ∧
      (fb_seek s offset whence).2.fbram = s.fbram ∧
      (fb_seek s offset whence).2.hw = s.hw ∧
      (fb_seek s offset whence).2.user = s.user) := by
  have hh := half_pos m.OFF_BITS
  have hi := half_pos m.INT_BITS
  simp only [Int.ofNat_eq_coe, OFF_MAX] at hoff
  have hv : (to_off_t m target).val = target :=
    to_signed_of_range _ _ (by omega) (by omega)
  have hp : (to_off_t m target).val ≥ 0 := by rw [hv]; exact hpos
  rw [fb_seek_of_target s offset whence target ht, if_pos hp]
  refine ⟨?_, ?_, rfl, rfl, rfl, rfl, rfl⟩
  · intro hint
    simp only [Int.ofNat_eq_coe, INT_MAX] at hint
    have hr : to_int m target = target :=
      to_signed_of_range _ _ (by omega) (by omega)
    show (to_off_t m (to_int m (to_off_t m target).val)).val = target
    rw [hv, hr, hv]
  · show Int.ofNat (to_off_t m target).val.toNat = target
    rw [hv]
    exact Int.toNat_of_nonneg hpos

/-- Witness of C9, amended: seeking 10 bytes past the end of a 1024 byte
frame buffer with `SEEK_END` gives position 1034, returns 1034 and keeps the
length 1024. -/
theorem fb_seek_sets_position_witness :
    (fb_seek (sys0 1024 5) (to_off_t lp64 10) SEEK_END).1 = 1034 ∧
    Int.ofNat (fb_seek (sys0 1024 5) (to_off_t lp64 10) SEEK_END).2.filep.f_pos = 1034 ∧
    (fb_seek (sys0 1024 5) (to_off_t lp64 10) SEEK_END).2.fb.fblen = 1024 :=
  ⟨(fb_seek_sets_position (sys0 1024 5) (to_off_t lp64 10) SEEK_END 1034
      (Or.inr (Or.inr ⟨rfl, by decide⟩)) (by decide) (by decide)).1 (by decide),
   (fb_seek_sets_position (sys0 1024 5) (to_off_t lp64 10) SEEK_END 1034
      (Or.inr (Or.inr ⟨rfl, by decide⟩)) (by decide) (by decide)).2.1,
   (fb_seek_sets_position (sys0 1024 5) (to_off_t lp64 10) SEEK_END 1034
      (Or.inr (Or.inr ⟨rfl, by decide⟩)) (by decide) (by decide)).2.2.1⟩

/-! ## Device control -/

/-- The command numbers are pairwise different, in the form the case analysis
of `fb_ioctl` needs: a later command is not an earlier one. -/
theorem ioc_ne (k : fb_ioc) :
    k.FBIOGET_VIDEOINFO ≠ k.FIOC_MMAP ∧
    (k.FBIOGET_PLANEINFO ≠ k.FIOC_MMAP ∧ k.FBIOGET_PLANEINFO ≠ k.FBIOGET_VIDEOINFO) ∧
    (k.FBIOGET_CMAP ≠ k.FIOC_MMAP ∧ k.FBIOGET_CMAP ≠ k.FBIOGET_VIDEOINFO ∧
      k.FBIOGET_CMAP ≠ k.FBIOGET_PLANEINFO) ∧
    (k.FBIOPUT_CMAP ≠ k.FIOC_MMAP ∧ k.FBIOPUT_CMAP ≠ k.FBIOGET_VIDEOINFO ∧
      k.FBIOPUT_CMAP ≠ k.FBIOGET_PLANEINFO ∧ k.FBIOPUT_CMAP ≠ k.FBIOGET_CMAP) ∧
    (k.FBIOGET_CURSOR ≠ k.FIOC_MMAP ∧ k.FBIOGET_CURSOR ≠ k.FBIOGET_VIDEOINFO ∧
      k.FBIOGET_CURSOR ≠ k.FBIOGET_PLANEINFO ∧ k.FBIOGET_CURSOR ≠ k.FBIOGET_CMAP ∧
      k.FBIOGET_CURSOR ≠ k.FBIOPUT_CMAP) ∧
    (k.FBIOPUT_CURSOR ≠ k.FIOC_MMAP ∧ k.FBIOPUT_CURSOR ≠ k.FBIOGET_VIDEOINFO ∧
      k.FBIOPUT_CURSOR ≠ k.FBIOGET_PLANEINFO ∧ k.FBIOPUT_CURSOR ≠ k.FBIOGET_CMAP ∧
      k.FBIOPUT_CURSOR ≠ k.FBIOPUT_CMAP ∧ k.FBIOPUT_CURSOR ≠ k.FBIOGET_CURSOR) ∧
    (k.FBIO_UPDATE ≠ k.FIOC_MMAP ∧ k.FBIO_UPDATE ≠ k.FBIOGET_VIDEOINFO ∧
      k.FBIO_UPDATE ≠ k.FBIOGET_PLANEINFO ∧ k.FBIO_UPDATE ≠ k.FBIOGET_CMAP ∧
      k.FBIO_UPDATE ≠ k.FBIOPUT_CMAP ∧ k.FBIO_UPDATE ≠ k.FBIOGET_CURSOR ∧
      k.FBIO_UPDATE ≠ k.FBIOPUT_CURSOR) := by
  have h := k.distinct
  simp only [List.nodup_cons, List.mem_cons, List.mem_singleton, not_or,
    List.not_mem_nil, not_false_eq_true, List.nodup_nil, and_true] at h
  obtain ⟨⟨a1, a2, a3, a4, a5, a6, a7⟩, ⟨b2, b3, b4, b5, b6, b7⟩, ⟨c3, c4, c5, c6, c7⟩,
    ⟨d4, d5, d6, d7⟩, ⟨e5, e6, e7⟩, ⟨f6, f7⟩, g7⟩ := h
  exact ⟨Ne.symm a1, ⟨Ne.symm a2, Ne.symm b2⟩, ⟨Ne.symm a3, Ne.symm b3, Ne.symm c3⟩,
    ⟨Ne.symm a4, Ne.symm b4, Ne.symm c4, Ne.symm d4⟩,
    ⟨Ne.symm a5, Ne.symm b5, Ne.symm c5, Ne.symm d5, Ne.symm e5⟩,
    ⟨Ne.symm a6, Ne.symm b6, Ne.symm c6, Ne.symm d6, Ne.symm e6, Ne.symm f6⟩,
    ⟨Ne.symm a7, Ne.symm b7, Ne.symm c7, Ne.symm d7, Ne.symm e7, Ne.symm f7, Ne.symm g7⟩⟩

/-- The `FIOC_MMAP` case of `fb_ioctl`. -/
theorem fb_ioctl_mmap (e : fb_env T δ) (s : fb_sys m T δ) (arg : Nat) :
    fb_ioctl e s e.ioc.FIOC_MMAP arg =
      (OK, { s with user := { s.user with ppv := store s.user.ppv arg s.fb.fbmem } }) := by
  simp [fb_ioctl]

/-- The `FBIOGET_VIDEOINFO` case of `fb_ioctl`. -/
theorem fb_ioctl_videoinfo (e : fb_env T δ) (s : fb_sys m T δ) (arg : Nat) :
    fb_ioctl e s e.ioc.FBIOGET_VIDEOINFO arg =
      ((s.fb.vtable.getvideoinfo s.hw (s.user.vinfo arg)).1,
       { s with hw := (s.fb.vtable.getvideoinfo s.hw (s.user.vinfo arg)).2.2,
                user := { s.user with vinfo := (store s.user.vinfo arg
                  (s.fb.vtable.getvideoinfo s.hw (s.user.vinfo arg)).2.1) } }) := by
  obtain ⟨h1, -⟩ := ioc_ne e.ioc
  simp [fb_ioctl, h1]

/-- The `FBIOGET_PLANEINFO` case of `fb_ioctl`. -/
theorem fb_ioctl_planeinfo (e : fb_env T δ) (s : fb_sys m T δ) (arg : Nat) :
    fb_ioctl e s e.ioc.FBIOGET_PLANEINFO arg =
      ((s.fb.vtable.getplaneinfo s.hw s.fb.plane (s.user.pinfo arg)).1,
       { s with hw := (s.fb.vtable.getplaneinfo s.hw s.fb.plane (s.user.pinfo arg)).2.2,
                user := { s.user with pinfo := (store s.user.pinfo arg
                  (s.fb.vtable.getplaneinfo s.hw s.fb.plane (s.user.pinfo arg)).2.1) } }) := by
  obtain ⟨-, ⟨h1, h2⟩, -⟩ := ioc_ne e.ioc
  simp [fb_ioctl, h1, h2]

/-- The `FBIOGET_CMAP` and `FBIOPUT_CMAP` cases of `fb_ioctl`, in a build
with `CONFIG_FB_CMAP`. -/
theorem fb_ioctl_cmap (e : fb_env T δ) (s : fb_sys m T δ) (arg : Nat)
    (hc : e.CONFIG_FB_CMAP = true) :
    fb_ioctl e s e.ioc.FBIOGET_CMAP arg =
      ((s.fb.vtable.getcmap s.hw (s.user.cmap arg)).1,
       { s with hw := (s.fb.vtable.getcmap s.hw (s.user.cmap arg)).2.2,
                user := { s.user with cmap := (store s.user.cmap arg
                  (s.fb.vtable.getcmap s.hw (s.user.cmap arg)).2.1) } }) ∧
    fb_ioctl e s e.ioc.FBIOPUT_CMAP arg =
      ((s.fb.vtable.putcmap s.hw (s.user.cmap arg)).1,
       { s with hw := (s.fb.vtable.putcmap s.hw (s.user.cmap arg)).2 }) := by
  obtain ⟨-, -, ⟨c1, c2, c3⟩, ⟨d1, d2, d3, d4⟩, -⟩ := ioc_ne e.ioc
  exact ⟨by simp [fb_ioctl, hc, c1, c2, c3], by simp [fb_ioctl, hc, d1, d2, d3, d4]⟩

/-- The `FBIOGET_CURSOR` and `FBIOPUT_CURSOR` cases of `fb_ioctl`, in a build
with `CONFIG_FB_HWCURSOR`. -/
theorem fb_ioctl_cursor (e : fb_env T δ) (s : fb_sys m T δ) (arg : Nat)
    (hc : e.CONFIG_FB_HWCURSOR = true) :
    fb_ioctl e s e.ioc.FBIOGET_CURSOR arg =
      ((s.fb.vtable.getcursor s.hw (s.user.attrib arg)).1,
       { s with hw := (s.fb.vtable.getcursor s.hw (s.user.attrib arg)).2.2,
                user := { s.user with attrib := (store s.user.attrib arg
                  (s.fb.vtable.getcursor s.hw (s.user.attrib arg)).2.1) } }) ∧
    fb_ioctl e s e.ioc.FBIOPUT_CURSOR arg =
      ((s.fb.vtable.setcursor s.hw (s.user.cursor arg)).1,
       { s with hw := (s.fb.vtable.setcursor s.hw (s.user.cursor arg)).2.2,
                user := { s.user with cursor := (store s.user.cursor arg
                  (s.fb.vtable.setcursor s.hw (s.user.cursor arg)).2.1) } }) := by
  obtain ⟨-, -, -, -, ⟨g1, g2, g3, g4, g5⟩, ⟨p1, p2, p3, p4, p5, p6⟩, -⟩ := ioc_ne e.ioc
  exact ⟨by simp [fb_ioctl, hc, g1, g2, g3, g4, g5],
    by simp [fb_ioctl, hc, p1, p2, p3, p4, p5, p6]⟩

/-- The `FBIO_UPDATE` case of `fb_ioctl`, in a build with
`CONFIG_NX_UPDATE`: `getplaneinfo` is called with the plane of the device on
the automatic variable `pinfo`, and when its result is not negative
`nx_notify_rectangle` is called with the plane information it produced and
the caller's rectangle. -/
theorem fb_ioctl_update (e : fb_env T δ) (s : fb_sys m T δ) (arg : Nat)
    (hc : e.CONFIG_NX_UPDATE = true) :
    fb_ioctl e s e.ioc.FBIO_UPDATE arg =
      if (s.fb.vtable.getplaneinfo s.hw s.fb.plane e.auto_pinfo).1 ≥ 0 then
        ((s.fb.vtable.getplaneinfo s.hw s.fb.plane e.auto_pinfo).1,
         { s with hw := (e.nx_notify_rectangle
            (s.fb.vtable.getplaneinfo s.hw s.fb.plane e.auto_pinfo).2.1 (s.user.rect arg)
            (s.fb.vtable.getplaneinfo s.hw s.fb.plane e.auto_pinfo).2.2) })
      else
        ((s.fb.vtable.getplaneinfo s.hw s.fb.plane e.auto_pinfo).1,
         { s with hw := (s.fb.vtable.getplaneinfo s.hw s.fb.plane e.auto_pinfo).2.2 }) := by
  obtain ⟨-, -, -, -, -, -, ⟨u1, u2, u3, u4, u5, u6, u7⟩⟩ := ioc_ne e.ioc
  simp only [fb_ioctl, hc, u1, u2, u3, u4, u5, u6, u7, if_false, false_and, and_false,
    true_and, if_true]

/-- The file operation `fb_ioctl` never writes the open file: the file
position after the call is the one before, for every command. -/
theorem fb_ioctl_filep (e : fb_env T δ) (s : fb_sys m T δ) (cmd : Int) (arg : Nat) :
    (fb_ioctl e s cmd arg).2.filep = s.filep := by
  unfold fb_ioctl
  dsimp only
  split_ifs <;> rfl

/-- C10: `fb_ioctl` forwards each recognised command to the virtual device
table: it calls the method of the command on the state behind the table and
on the object `arg` points to, returns what the method returns, stores the
object the method leaves at `arg` and keeps the state the method leaves,
and changes nothing else.  `FBIOGET_VIDEOINFO` calls `getvideoinfo`,
`FBIOGET_PLANEINFO` calls `getplaneinfo` with the plane number of the
device; in the builds that have them, `FBIOGET_CMAP`, `FBIOPUT_CMAP`,
`FBIOGET_CURSOR` and `FBIOPUT_CURSOR` call `getcmap`, `putcmap`, `getcursor`
and `setcursor`, and `FBIO_UPDATE` calls `getplaneinfo` and, when that does
not fail, `nx_notify_rectangle` with the caller's rectangle.  `FIOC_MMAP`
stores the address of the frame buffer memory in the caller's pointer,
returns `OK` and calls no method.  No command changes the file position. -/
theorem fb_ioctl_forwards (e : fb_env T δ) (s : fb_sys m T δ) (arg : Nat) :
    fb_ioctl e s e.ioc.FBIOGET_VIDEOINFO arg =
      ((s.fb.vtable.getvideoinfo s.hw (s.user.vinfo arg)).1,
       { s with hw := (s.fb.vtable.getvideoinfo s.hw (s.user.vinfo arg)).2.2,
                user := { s.user with vinfo := (store s.user.vinfo arg
                  (s.fb.vtable.getvideoinfo s.hw (s.user.vinfo arg)).2.1) } }) ∧
    fb_ioctl e s e.ioc.FBIOGET_PLANEINFO arg =
      ((s.fb.vtable.getplaneinfo s.hw s.fb.plane (s.user.pinfo arg)).1,
       { s with hw := (s.fb.vtable.getplaneinfo s.hw s.fb.plane (s.user.pinfo arg)).2.2,
                user := { s.user with pinfo := (store s.user.pinfo arg
                  (s.fb.vtable.getplaneinfo s.hw s.fb.plane (s.user.pinfo arg)).2.1) } }) ∧
    (fb_ioctl e s e.ioc.FIOC_MMAP arg =
        (OK, { s with user := { s.user with ppv := store s.user.ppv arg s.fb.fbmem } }) ∧
      (fb_ioctl e s e.ioc.FIOC_MMAP arg).2.user.ppv arg = s.fb.fbmem) ∧
    (e.CONFIG_FB_CMAP = true →
      fb_ioctl e s e.ioc.FBIOGET_CMAP arg =
        ((s.fb.vtable.getcmap s.hw (s.user.cmap arg)).1,
         { s with hw := (s.fb.vtable.getcmap s.hw (s.user.cmap arg)).2.2,
                  user := { s.user with cmap := (store s.user.cmap arg
                    (s.fb.vtable.getcmap s.hw (s.user.cmap arg)).2.1) } }) ∧
      fb_ioctl e s e.ioc.FBIOPUT_CMAP arg =
        ((s.fb.vtable.putcmap s.hw (s.user.cmap arg)).1,
         { s with hw := (s.fb.vtable.putcmap s.hw (s.user.cmap arg)).2 })) ∧
    (e.CONFIG_FB_HWCURSOR = true →
      fb_ioctl e s e.ioc.FBIOGET_CURSOR arg =
        ((s.fb.vtable.getcursor s.hw (s.user.attrib arg)).1,
         { s with hw := (s.fb.vtable.getcursor s.hw (s.user.attrib arg)).2.2,
                  user := { s.user with attrib := (store s.user.attrib arg
                    (s.fb.vtable.getcursor s.hw (s.user.attrib arg)).2.1) } }) ∧
      fb_ioctl e s e.ioc.FBIOPUT_CURSOR arg =
        ((s.fb.vtable.setcursor s.hw (s.user.cursor arg)).1,
         { s with hw := (s.fb.vtable.setcursor s.hw (s.user.cursor arg)).2.2,
                  user := { s.user with cursor := (store s.user.cursor arg
                    (s.fb.vtable.setcursor s.hw (s.user.cursor arg)).2.1) } })) ∧
    (e.CONFIG_NX_UPDATE = true →
      fb_ioctl e s e.ioc.FBIO_UPDATE arg =
        if (s.fb.vtable.getplaneinfo s.hw s.fb.plane e.auto_pinfo).1 ≥ 0 then
          ((s.fb.vtable.getplaneinfo s.hw s.fb.plane e.auto_pinfo).1,
           { s with hw := (e.nx_notify_rectangle
              (s.fb.vtable.getplaneinfo s.hw s.fb.plane e.auto_pinfo).2.1 (s.user.rect arg)
              (s.fb.vtable.getplaneinfo s.hw s.fb.plane e.auto_pinfo).2.2) })
        else
          ((s.fb.vtable.getplaneinfo s.hw s.fb.plane e.auto_pinfo).1,
           { s with hw := (s.fb.vtable.getplaneinfo s.hw s.fb.plane e.auto_pinfo).2.2 })) ∧
    (∀ cmd : Int, (fb_ioctl e s cmd arg).2.filep.f_pos = s.filep.f_pos) := by
  refine ⟨fb_ioctl_videoinfo e s arg, fb_ioctl_planeinfo e s arg, ⟨fb_ioctl_mmap e s arg, ?_⟩,
    fb_ioctl_cmap e s arg, fb_ioctl_cursor e s arg, fb_ioctl_update e s arg, fun cmd => ?_⟩
  · rw [fb_ioctl_mmap]
    simp [store]
  · rw [fb_ioctl_filep]

/-- Witness of C10: on the example device (plane 3, frame buffer at address
4096, call counter 0) in the build with every option, each command returns
the number of its method, leaves the object of its method at `arg` and
counts the call: `FBIOGET_PLANEINFO` returns 3, the plane it passes on,
`FBIOGET_CMAP` returns 7 and stores 65 for the 64 found at address 64,
`FBIOPUT_CMAP` returns 8 and adds the 64 to the counter, `FBIOGET_CURSOR`
returns 9 and stores 66, `FBIOPUT_CURSOR` returns 10 and stores 67,
`FBIO_UPDATE` returns 3 and leaves the counter at 1065 (one call, then
`nx_notify_rectangle` with the rectangle 64), `FIOC_MMAP` stores 4096,
returns 0 and leaves the counter at 0; the position stays at 7. -/
theorem fb_ioctl_forwards_witness :
    ((fb_ioctl env1 sys1 3 64).1 = 3 ∧ (fb_ioctl env1 sys1 3 64).2.hw = 1 ∧
      (fb_ioctl env1 sys1 3 64).2.user.pinfo 64 = ⟨4096, 4, 8⟩) ∧
    ((fb_ioctl env1 sys1 2 64).1 = 0 ∧ (fb_ioctl env1 sys1 2 64).2.user.vinfo 64 = ⟨1⟩) ∧
    ((fb_ioctl env1 sys1 4 64).1 = 7 ∧ (fb_ioctl env1 sys1 4 64).2.user.cmap 64 = 65 ∧
      (fb_ioctl env1 sys1 4 64).2.hw = 1) ∧
    ((fb_ioctl env1 sys1 5 64).1 = 8 ∧ (fb_ioctl env1 sys1 5 64).2.hw = 64) ∧
    ((fb_ioctl env1 sys1 6 64).1 = 9 ∧ (fb_ioctl env1 sys1 6 64).2.user.attrib 64 = 66) ∧
    ((fb_ioctl env1 sys1 7 64).1 = 10 ∧ (fb_ioctl env1 sys1 7 64).2.user.cursor 64 = 67) ∧
    ((fb_ioctl env1 sys1 8 64).1 = 3 ∧ (fb_ioctl env1 sys1 8 64).2.hw = 1065) ∧
    ((fb_ioctl env1 sys1 1 64).1 = 0 ∧ (fb_ioctl env1 sys1 1 64).2.user.ppv 64 = 4096 ∧
      (fb_ioctl env1 sys1 1 64).2.hw = 0) ∧
    (fb_ioctl env1 sys1 8 64).2.filep.f_pos = 7 := by
  have h := fb_ioctl_forwards env1 sys1 64
  obtain ⟨hv, hp, ⟨hm, -⟩, hc, hu, hx, hf⟩ := h
  obtain ⟨hc1, hc2⟩ := hc rfl
  obtain ⟨hu1, hu2⟩ := hu rfl
  have hx1 := hx rfl
  refine ⟨?_, ?_, ?_, ?_, ?_, ?_, ?_, ?_, hf 8⟩
  · rw [show (3 : Int) = env1.ioc.FBIOGET_PLANEINFO from rfl, hp]; decide
  · rw [show (2 : Int) = env1.ioc.FBIOGET_VIDEOINFO from rfl, hv]; decide
  · rw [show (4 : Int) = env1.ioc.FBIOGET_CMAP from rfl, hc1]; decide
  · rw [show (5 : Int) = env1.ioc.FBIOPUT_CMAP from rfl, hc2]; decide
  · rw [show (6 : Int) = env1.ioc.FBIOGET_CURSOR from rfl, hu1]; decide
  · rw [show (7 : Int) = env1.ioc.FBIOPUT_CURSOR from rfl, hu2]; decide
  · rw [show (8 : Int) = env1.ioc.FBIO_UPDATE from rfl, hx1]; decide
  · rw [show (1 : Int) = env1.ioc.FIOC_MMAP from rfl, hm]; decide

/-- C11: for a command `fb_ioctl` has no case for, it returns `-ENOTTY` and
the whole state is as before: the state behind the virtual device table is
untouched, and the same holds whatever table the device carries, so no
method of the table runs. -/
theorem fb_ioctl_unknown (e : fb_env T δ) (s : fb_sys m T δ) (cmd : Int) (arg : Nat)
    (h : ¬ recognised e cmd) :
    (fb_ioctl e s cmd arg).1 = -ENOTTY ∧
    (fb_ioctl e s cmd arg).2 = s ∧
    (fb_ioctl e s cmd arg).2.hw = s.hw ∧
    (∀ vt : fb_vtable_s T δ,
      fb_ioctl e { s with fb := { s.fb with vtable := vt } } cmd arg
        = (-ENOTTY, { s with fb := { s.fb with vtable := vt } })) := by
  simp only [recognised, not_or, not_and] at h
  obtain ⟨h1, h2, h3, h4, h5, h6⟩ := h
  have key : ∀ s' : fb_sys m T δ, fb_ioctl e s' cmd arg = (-ENOTTY, s') := by
    intro s'
    unfold fb_ioctl
    rw [if_neg h1, if_neg h2, if_neg h3, if_neg (fun c => (h4 c.1).1 c.2),
      if_neg (fun c => (h4 c.1).2 c.2), if_neg (fun c => (h5 c.1).1 c.2),
      if_neg (fun c => (h5 c.1).2 c.2), if_neg (fun c => h6 c.1 c.2)]
  refine ⟨?_, ?_, ?_, fun vt => key _⟩
  · rw [key s]
  · rw [key s]
  · rw [key s]

/-- Witness of C11: in the build without the optional commands, command 99
returns -25 (`-ENOTTY`) and the call counter behind the table stays 0. -/
theorem fb_ioctl_unknown_witness :
    ¬ recognised env0 99 ∧
    (fb_ioctl env0 (sys0 1024 7) 99 64).1 = -25 ∧
    (fb_ioctl env0 (sys0 1024 7) 99 64).2.hw = 0 :=
  ⟨by decide,
   (fb_ioctl_unknown env0 (sys0 1024 7) 99 64 (by decide)).1,
   (fb_ioctl_unknown env0 (sys0 1024 7) 99 64 (by decide)).2.2.1⟩

/-! ## Seeking with an invalid `whence` -/

/-- C15: for a `whence` other than `SEEK_SET`, `SEEK_CUR` and `SEEK_END`,
`fb_seek` returns `-EINVAL` and leaves the file position unchanged (the whole
state is untouched), whatever the offset and the position. -/
theorem fb_seek_bad_whence (s : fb_sys m T δ) (offset : off_t m) (whence : Int)
    (hset : whence ≠ SEEK_SET) (hcur : whence ≠ SEEK_CUR) (hend : whence ≠ SEEK_END) :
    (fb_seek s offset whence).1 = -EINVAL ∧
    (fb_seek s offset whence).2.filep.f_pos = s.filep.f_pos ∧
    (fb_seek s offset whence).2 = s := by
  unfold fb_seek
  simp only [if_neg hcur, if_neg hset, if_neg hend]
  exact ⟨trivial, trivial, trivial⟩

/-- Witness of C15: `whence` = 3 with offset 10 at position 5. -/
theorem fb_seek_bad_whence_witness :
    (fb_seek (sys0 1024 5) (to_off_t lp64 10) 3).1 = -22 ∧
    (fb_seek (sys0 1024 5) (to_off_t lp64 10) 3).2.filep.f_pos = 5 :=
  ⟨(fb_seek_bad_whence (sys0 1024 5) (to_off_t lp64 10) 3
      (by decide) (by decide) (by decide)).1,
   (fb_seek_bad_whence (sys0 1024 5) (to_off_t lp64 10) 3
      (by decide) (by decide) (by decide)).2.1⟩

/-! ## Write, seek back, read -/

/-- The function `fb_seek` with `SEEK_SET` and a file position as the offset:
the position is stored, and returned through the `int`. -/
theorem fb_seek_set (s : fb_sys m T δ) (P : Nat) (hP : P ≤ OFF_MAX m) :
    fb_seek s (to_off_t m (Int.ofNat P)) SEEK_SET =
      ((to_off_t m (to_int m (Int.ofNat P))).val, set_pos s (to_off_t m (Int.ofNat P))) ∧
    (set_pos s (to_off_t m (Int.ofNat P))).filep.f_pos = P := by
  have hv := to_off_t_of_le m P hP
  have hp : (to_off_t m (Int.ofNat P)).val ≥ 0 := by rw [hv]; exact Int.ofNat_nonneg _
  constructor
  · rw [fb_seek_of_target s _ SEEK_SET (to_off_t m (Int.ofNat P)).val (Or.inl ⟨rfl, rfl⟩),
      to_off_t_val, if_pos hp, hv]
  · show (to_off_t m (Int.ofNat P)).val.toNat = P
    rw [hv]
    rfl

/-- C16: from a position `P` below the frame buffer length, writing `n`
bytes that fit into the rest of the frame buffer, seeking back to `P` with
`SEEK_SET` and reading `n` bytes returns `n` and yields the bytes written.
The write returns `n` as well, and the seek sets the position to `P`; it
returns `P` when `P` is at most `INT_MAX`. -/
theorem fb_write_seek_read (s : fb_sys m T δ) (data buffer : bytes) (n : Nat)
    (hP : s.filep.f_pos < s.fb.fblen) (hn : n ≤ s.fb.fblen - s.filep.f_pos) :
    (fb_write s data n).1 = Int.ofNat n ∧
    ((fb_seek (fb_write s data n).2 (to_off_t m (Int.ofNat s.filep.f_pos)) SEEK_SET
        ).2.filep.f_pos = s.filep.f_pos ∧
      (s.filep.f_pos ≤ INT_MAX m →
        (fb_seek (fb_write s data n).2 (to_off_t m (Int.ofNat s.filep.f_pos)) SEEK_SET).1
          = Int.ofNat s.filep.f_pos)) ∧
    (fb_read (fb_seek (fb_write s data n).2 (to_off_t m (Int.ofNat s.filep.f_pos)) SEEK_SET).2
      buffer n).1 = Int.ofNat n ∧
    (∀ i, i < n →
      (fb_read (fb_seek (fb_write s data n).2 (to_off_t m (Int.ofNat s.filep.f_pos)) SEEK_SET).2
        buffer n).2.1 i = data i) := by
  have hmin : min n (s.fb.fblen - s.filep.f_pos) = n := Nat.min_eq_left hn
  have hlt := off_max_lt_size m
  have hfb := s.fblen_le
  have hlen : s.filep.f_pos + n ≤ SIZE_MAX m := by unfold SIZE_MAX; omega
  obtain ⟨h1, -, h3⟩ := xfer_no_wrap m _ n _ hP s.fblen_le hlen
  rw [hmin] at h1 h3
  obtain ⟨hseek, hpos⟩ := fb_seek_set (fb_write s data n).2 s.filep.f_pos s.f_pos_le
  have hfb2 : (set_pos (fb_write s data n).2 (to_off_t m (Int.ofNat s.filep.f_pos))).fb.fblen
      = s.fb.fblen := by
    rw [fb_write_below s data n hP]; rfl
  have hram : (set_pos (fb_write s data n).2 (to_off_t m (Int.ofNat s.filep.f_pos))).fbram
      = memcpy s.fbram data n := by
    rw [fb_write_below s data n hP, h1]; rfl
  have hP2 : (set_pos (fb_write s data n).2 (to_off_t m (Int.ofNat s.filep.f_pos))).filep.f_pos
      < (set_pos (fb_write s data n).2 (to_off_t m (Int.ofNat s.filep.f_pos))).fb.fblen := by
    rw [hpos, hfb2]; exact hP
  have hw : (fb_write s data n).1 = Int.ofNat n := by
    rw [fb_write_below s data n hP]
    show to_ssize_t m (Int.ofNat (xfer_size m s.filep.f_pos n s.fb.fblen)) = Int.ofNat n
    rw [h1, h3]
  refine ⟨hw, ⟨?_, ?_⟩, ?_, ?_⟩
  · rw [hseek]; exact hpos
  · intro hint
    have hi := half_pos m.INT_BITS
    unfold INT_MAX at hint
    have hr : to_int m (Int.ofNat s.filep.f_pos) = Int.ofNat s.filep.f_pos := by
      apply to_signed_of_range
      · simp only [Int.ofNat_eq_coe]; omega
      · simp only [Int.ofNat_eq_coe]; omega
    rw [hseek]
    show (to_off_t m (to_int m (Int.ofNat s.filep.f_pos))).val = Int.ofNat s.filep.f_pos
    rw [hr, to_off_t_of_le m _ s.f_pos_le]
  · rw [hseek, fb_read_below _ buffer n hP2]
    show to_ssize_t m (Int.ofNat (xfer_size m _ n _)) = Int.ofNat n
    rw [hpos, hfb2, h1, h3]
  · intro i hi
    rw [hseek, fb_read_below _ buffer n hP2]
    show memcpy buffer _ (xfer_size m _ n _) i = data i
    rw [hpos, hfb2, h1, hram]
    simp only [memcpy, if_pos hi]

/-- Witness of C16: writing the 3 bytes `200 201 202` at position 5 of a
16 byte frame buffer, seeking back to 5 and reading 3 bytes returns 3 and
the bytes `200 201 202`. -/
theorem fb_write_seek_read_witness :
    (fb_read (fb_seek (fb_write (sys0 16 5) data0 3).2 (to_off_t lp64 5) SEEK_SET).2
      (fun _ => 0) 3).1 = 3 ∧
    (fb_read (fb_seek (fb_write (sys0 16 5) data0 3).2 (to_off_t lp64 5) SEEK_SET).2
      (fun _ => 0) 3).2.1 0 = 200 ∧
    (fb_read (fb_seek (fb_write (sys0 16 5) data0 3).2 (to_off_t lp64 5) SEEK_SET).2
      (fun _ => 0) 3).2.1 2 = 202 :=
  ⟨(fb_write_seek_read (sys0 16 5) data0 (fun _ => 0) 3 (by decide) (by decide)).2.2.1,
   (fb_write_seek_read (sys0 16 5) data0 (fun _ => 0) 3 (by decide) (by decide)).2.2.2 0
     (by decide),
   (fb_write_seek_read (sys0 16 5) data0 (fun _ => 0) 3 (by decide) (by decide)).2.2.2 2
     (by decide)⟩

/-! ## The file position under the transfer operations -/

/-- The name built in `devname` is the first 15 characters of the full
name. -/
theorem fb_devname_eq_take (nplanes : Nat) (display : Int) (plane : Nat) :
    fb_devname nplanes display plane = (spec_devname nplanes display plane).take 15 := by
  unfold fb_devname spec_devname snprintf
  split_ifs <;> rfl

/-- The conversion `%d` of a number from 0 to `10 ^ e - 1` has at most `e`
characters. -/
theorem fmt_d_length (n e : Nat) (he : 0 < e) (hn : n < 10 ^ e) :
    (fmt_d (Int.ofNat n)).length ≤ e :=
  Nat.toDigitsCore_length 10 (by decide) (n + 1) n e hn he

/-- The path of `fb_register` on which `up_fbgetvplane` returns `NULL` after
the allocation and `up_fbinitialize` went well: the function frees the device
and returns the result of `up_fbinitialize`, which is not negative. -/
theorem fb_register_null_plane {κ : Type} (k : fb_kernel T δ κ) (display : Int)
    (plane : Nat) (w : fb_world δ κ) (o1 : κ) (ri : Int) (h1 h2 : δ)
    (ha : k.kmm_zalloc w.os = (true, o1))
    (hi : k.up_fbinitialize display w.hw = (ri, h1)) (hri : 0 ≤ ri)
    (hg : k.up_fbgetvplane display plane h1 = (none, h2)) :
    fb_register k display plane w = (ri, { w with hw := h2, os := k.kmm_free o1 }) ∧
    ¬ (fb_register k display plane w).1 < 0 := by
  have hnot : ¬ ri < 0 := by omega
  have e1 : fb_register k display plane w
      = (ri, { w with hw := h2, os := k.kmm_free o1 }) := by
    simp [fb_register, ha, hi, hg, hnot]
  rw [e1]
  exact ⟨rfl, hnot⟩

/-- The results of `fb_register`: a negative value, `OK`, or, on the path on
which `up_fbgetvplane` returns `NULL`, the result of `up_fbinitialize`, which
is not negative there. -/
theorem fb_register_ret {κ : Type} (k : fb_kernel T δ κ) (display : Int) (plane : Nat)
    (w : fb_world δ κ) :
    (fb_register k display plane w).1 < 0 ∨
    (fb_register k display plane w).1 = OK ∨
    ((k.up_fbgetvplane display plane (k.up_fbinitialize display w.hw).2).1.isNone = true ∧
      (fb_register k display plane w).1 = (k.up_fbinitialize display w.hw).1 ∧
      0 ≤ (k.up_fbinitialize display w.hw).1) := by
  unfold fb_register
  dsimp only
  split_ifs with h1 h2
  · left; show -ENOMEM < 0; decide
  · left; exact h2
  · split
    · rename_i hnone
      right; right
      exact ⟨by rw [hnone]; rfl, rfl, by omega⟩
    · split_ifs with h3 h4 h5
      · left; exact h3
      · left; exact h4
      · left; exact h5
      · right; left; rfl

/-- C12, evaluated at a failing input: with `up_fbinitialize` returning 0 and
`up_fbgetvplane` returning `NULL`, `fb_register` returns 0, a value that is
not negative, although no driver is registered (the driver namespace stays
empty and the device is freed). -/
theorem fb_register_null_plane_returns_ok :
    (fb_kernel.up_fbinitialize (kernel0 none) 0 world0.hw).1 = 0 ∧
    (fb_kernel.up_fbgetvplane (kernel0 none) 0 0 0).1.isNone = true ∧
    (fb_register (kernel0 none) 0 0 world0).1 = OK ∧
    ¬ (fb_register (kernel0 none) 0 0 world0).1 < 0 ∧
    (fb_register (kernel0 none) 0 0 world0).2.os.drivers = [] ∧
    (fb_register (kernel0 none) 0 0 world0).2.os.live = 0 := by
  decide

/-- C13, refuted at a concrete input: with one plane, every service
succeeding and the display number 100000000, `fb_register` returns `OK` and
the one name in the driver namespace is `/dev/fb10000000`, not
`/dev/fb100000000`. -/
theorem fb_register_name_cut :
    (fb_register (kernel0 (some (vtable_n 1))) 100000000 0 world0).1 = OK ∧
    (fb_register (kernel0 (some (vtable_n 1))) 100000000 0 world0).2.os.drivers
      = ["/dev/fb10000000".toList] ∧
    spec_devname 1 100000000 0 = "/dev/fb100000000".toList ∧
    ¬ spec_devname 1 100000000 0
      ∈ (fb_register (kernel0 (some (vtable_n 1))) 100000000 0 world0).2.os.drivers := by
  decide

/-- C13, amended: when the allocation, `up_fbinitialize`, `up_fbgetvplane`,
`getvideoinfo` and `getplaneinfo` succeed, `fb_register` calls
`register_driver` with the first 15 characters of the full name (`/dev/fbN`
when `getvideoinfo` reports fewer than two planes, `/dev/fbN-M` otherwise)
and returns `OK` unless that call fails.  The 15 characters are the full name
whenever it is that short: for one plane with a display number from 0 to
99999999, and for more planes with a display number from 0 to 9999 and a
plane below 1000. -/
theorem fb_register_name {κ : Type} (k : fb_kernel T δ κ) (display : Int)
    (plane : Nat) (w : fb_world δ κ) (o1 : κ) (ri rv rp : Int) (h1 h2 h3 h4 : δ)
    (vt : fb_vtable_s T δ) (vinfo : fb_videoinfo_s) (pinfo : fb_planeinfo_s)
    (ha : k.kmm_zalloc w.os = (true, o1))
    (hi : k.up_fbinitialize display w.hw = (ri, h1)) (hri : 0 ≤ ri)
    (hg : k.up_fbgetvplane display plane h1 = (some vt, h2))
    (hv : vt.getvideoinfo h2 k.auto_vinfo = (rv, vinfo, h3)) (hrv : 0 ≤ rv)
    (hp : vt.getplaneinfo h3 plane k.auto_pinfo = (rp, pinfo, h4)) (hrp : 0 ≤ rp) :
    let name := (spec_devname vinfo.nplanes display plane).take 15
    let fb : fb_chardev_s T δ :=
      { vtable := vt, fbmem := pinfo.fbmem, fblen := pinfo.fblen,
        plane := plane % 256, bpp := pinfo.bpp }
    let ram := store w.ram pinfo.fbmem (memset (w.ram pinfo.fbmem) 0 pinfo.fblen)
    let r := k.register_driver name fb o1
    fb_register k display plane w
      = (if r.1 < 0 then (r.1, { hw := h4, os := k.kmm_free r.2, ram := ram })
         else (OK, { hw := h4, os := r.2, ram := ram })) ∧
    ((spec_devname vinfo.nplanes display plane).length ≤ 15 →
      name = spec_devname vinfo.nplanes display plane) ∧
    (vinfo.nplanes < 2 → ∀ n : Nat, display = Int.ofNat n → n < 10 ^ 8 →
      name = "/dev/fb".toList ++ fmt_d display) ∧
    (2 ≤ vinfo.nplanes → ∀ n : Nat, display = Int.ofNat n → n < 10 ^ 4 → plane < 1000 →
      name = "/dev/fb".toList ++ fmt_d display ++ '-' :: fmt_d (Int.ofNat plane)) := by
  intro name fb ram r
  have n1 : ¬ ri < 0 := by omega
  have n2 : ¬ rv < 0 := by omega
  have n3 : ¬ rp < 0 := by omega
  refine ⟨?_, ?_, ?_, ?_⟩
  · simp only [fb_register, ha, hi, hg, hv, hp, n1, n2, n3, fb_devname_eq_take,
      if_false, Bool.true_eq_false]
  · intro hlen
    exact List.take_of_length_le hlen
  · intro hpl n hd hn
    have hs : spec_devname vinfo.nplanes display plane
        = "/dev/fb".toList ++ fmt_d display := by
      simp only [spec_devname, if_pos hpl]
    show (spec_devname vinfo.nplanes display plane).take 15 = _
    rw [hs]
    apply List.take_of_length_le
    have h8 := fmt_d_length n 8 (by decide) hn
    rw [← hd] at h8
    have h7 : "/dev/fb".toList.length = 7 := by decide
    rw [List.length_append, h7]
    omega
  · intro hpl n hd hn hm
    have hnp : ¬ vinfo.nplanes < 2 := by omega
    have hs : spec_devname vinfo.nplanes display plane
        = "/dev/fb".toList ++ fmt_d display ++ '-' :: fmt_d (Int.ofNat plane) := by
      simp only [spec_devname, if_neg hnp]
    show (spec_devname vinfo.nplanes display plane).take 15 = _
    rw [hs]
    apply List.take_of_length_le
    have h4 := fmt_d_length n 4 (by decide) hn
    rw [← hd] at h4
    have h3 := fmt_d_length plane 3 (by decide) hm
    have h7 : "/dev/fb".toList.length = 7 := by decide
    rw [List.length_append, List.length_append, h7, List.length_cons]
    omega

/-- Witness of C13, amended: with two planes and every service succeeding,
display 1 and plane 0 are registered as `/dev/fb1-0`. -/
theorem fb_register_name_witness :
    (fb_register (kernel0 (some (vtable_n 2))) 1 0 world0).1 = OK ∧
    (fb_register (kernel0 (some (vtable_n 2))) 1 0 world0).2.os.drivers
      = ["/dev/fb1-0".toList] ∧
    (spec_devname 2 1 0).take 15 = "/dev/fb1-0".toList :=
  ⟨by rw [(fb_register_name (kernel0 (some (vtable_n 2))) 1 0 world0
        ⟨1, []⟩ 0 0 0 0 0 1 2 (vtable_n 2) ⟨2⟩ ⟨4096, 4, 8⟩
        rfl rfl (by decide) rfl rfl (by decide) rfl (by decide)).1]; decide,
   by rw [(fb_register_name (kernel0 (some (vtable_n 2))) 1 0 world0
        ⟨1, []⟩ 0 0 0 0 0 1 2 (vtable_n 2) ⟨2⟩ ⟨4096, 4, 8⟩
        rfl rfl (by decide) rfl rfl (by decide) rfl (by decide)).1]; decide,
   (fb_register_name (kernel0 (some (vtable_n 2))) 1 0 world0
        ⟨1, []⟩ 0 0 0 0 0 1 2 (vtable_n 2) ⟨2⟩ ⟨4096, 4, 8⟩
        rfl rfl (by decide) rfl rfl (by decide) rfl (by decide)).2.2.2
      (by decide) 1 rfl (by decide) (by decide)⟩

end Fb

namespace Mac802154

variable {ν ι σ : Type}

/-- The order of two records by priority. -/
theorem prio_le_total (a b : mac802154_maccb_s ν ι σ) :
    a.prio ≤ b.prio ∨ b.prio ≤ a.prio :=
  Nat.le_total _ _

/-- Binding a record and inserting another one in front of its equals can be
done in either order. -/
theorem maccb_insert_orderedInsert (a b : mac802154_maccb_s ν ι σ) :
    ∀ m : MACHANDLE ν ι σ,
      maccb_insert b (List.orderedInsert (fun x y => x.prio ≤ y.prio) a m)
        = List.orderedInsert (fun x y => x.prio ≤ y.prio) a (maccb_insert b m)
  | [] => by
    by_cases h : a.prio ≤ b.prio
    · have h2 : ¬ b.prio < a.prio := by omega
      simp [maccb_insert, List.orderedInsert, h, h2]
    · have h2 : b.prio < a.prio := by omega
      simp [maccb_insert, List.orderedInsert, h, h2]
  | x :: t => by
    have ih := maccb_insert_orderedInsert a b t
    by_cases hbx : b.prio < x.prio <;> by_cases hax : a.prio ≤ x.prio
    · by_cases hab : a.prio ≤ b.prio
      · have h2 : ¬ b.prio < a.prio := by omega
        simp [maccb_insert, List.orderedInsert, hbx, hax, hab, h2]
      · have h2 : b.prio < a.prio := by omega
        simp [maccb_insert, List.orderedInsert, hbx, hax, hab, h2]
    · have hab : ¬ a.prio ≤ b.prio := by omega
      simp [maccb_insert, List.orderedInsert, hbx, hax, hab]
    · have h2 : ¬ b.prio < a.prio := by omega
      simp [maccb_insert, List.orderedInsert, hbx, hax, h2]
    · simp only [maccb_insert, List.orderedInsert, hbx, hax, if_false]
      rw [ih]

/-- Binding a record to the sorted registry of the records `pre` gives the
sorted registry of `pre` followed by the record. -/
theorem maccb_insert_insertionSort (b : mac802154_maccb_s ν ι σ) :
    ∀ pre : List (mac802154_maccb_s ν ι σ),
      maccb_insert b (List.insertionSort (fun x y => x.prio ≤ y.prio) pre)
        = List.insertionSort (fun x y => x.prio ≤ y.prio) (pre ++ [b])
  | [] => by simp [maccb_insert]
  | x :: p => by
    show maccb_insert b (List.orderedInsert (fun x y => x.prio ≤ y.prio) x
        (List.insertionSort (fun x y => x.prio ≤ y.prio) p))
      = List.orderedInsert (fun x y => x.prio ≤ y.prio) x
        (List.insertionSort (fun x y => x.prio ≤ y.prio) (p ++ [b]))
    rw [maccb_insert_orderedInsert, maccb_insert_insertionSort b p]

/-- The registry after a sequence of binds is the stable insertion sort of
the records by priority. -/
theorem bind_all_eq_insertionSort (cbs : List (mac802154_maccb_s ν ι σ)) :
    bind_all cbs = List.insertionSort (fun x y => x.prio ≤ y.prio) cbs := by
  have gen : ∀ (l pre : List (mac802154_maccb_s ν ι σ)),
      l.foldl (fun mac cb => (mac802154_bind mac cb).2)
          (List.insertionSort (fun x y => x.prio ≤ y.prio) pre)
        = List.insertionSort (fun x y => x.prio ≤ y.prio) (pre ++ l) := by
    intro l
    induction l with
    | nil => intro pre; simp
    | cons a t ih =>
      intro pre
      have step : (mac802154_bind
            (List.insertionSort (fun x y => x.prio ≤ y.prio) pre) a).2
          = List.insertionSort (fun x y => x.prio ≤ y.prio) (pre ++ [a]) :=
        maccb_insert_insertionSort a pre
      rw [List.foldl_cons, step, ih (pre ++ [a]), List.append_assoc]
      rfl
  have h := gen cbs []
  simpa [bind_all] using h

/-- Inserting in front of the first element with a key that is not smaller
keeps, for every key `p`, the order of the elements with the key `p`: the new
element comes first among its equals. -/
theorem filter_orderedInsert {β : Type} (k : β → Nat) (p : Nat) (a : β) :
    ∀ l : List β,
      (List.orderedInsert (fun x y => k x ≤ k y) a l).filter (fun c => k c = p)
        = if k a = p then a :: l.filter (fun c => k c = p)
          else l.filter (fun c => k c = p)
  | [] => by
    by_cases h : k a = p <;> simp [h]
  | x :: t => by
    have ih := filter_orderedInsert k p a t
    by_cases hax : k a ≤ k x
    · rw [List.orderedInsert, if_pos hax]
      by_cases h : k a = p
      · rw [if_pos h, List.filter_cons_of_pos (by simpa using h)]
      · rw [if_neg h, List.filter_cons_of_neg (by simpa using h)]
    · simp only [List.orderedInsert, hax, if_false]
      by_cases h : k a = p
      · have hx : ¬ k x = p := by omega
        rw [List.filter_cons_of_neg (by simpa using hx), ih, if_pos h, if_pos h,
          List.filter_cons_of_neg (by simpa using hx)]
      · rw [if_neg h]
        rw [if_neg h] at ih
        by_cases hx : k x = p
        · rw [List.filter_cons_of_pos (by simpa using hx), ih,
            List.filter_cons_of_pos (by simpa using hx)]
        · rw [List.filter_cons_of_neg (by simpa using hx), ih,
            List.filter_cons_of_neg (by simpa using hx)]

/-- Insertion sort by a key is stable: for every key `p` the elements with
the key `p` keep their order. -/
theorem filter_insertionSort {β : Type} (k : β → Nat) (p : Nat) :
    ∀ l : List β,
      (List.insertionSort (fun x y => k x ≤ k y) l).filter (fun c => k c = p)
        = l.filter (fun c => k c = p)
  | [] => rfl
  | a :: t => by
    show (List.orderedInsert (fun x y => k x ≤ k y) a
        (List.insertionSort (fun x y => k x ≤ k y) t)).filter (fun c => k c = p)
      = (a :: t).filter (fun c => k c = p)
    rw [filter_orderedInsert k p a, filter_insertionSort k p t]
    by_cases h : k a = p
    · rw [if_pos h, List.filter_cons_of_pos (by simpa using h)]
    · rw [if_neg h, List.filter_cons_of_neg (by simpa using h)]

/-- Insertion sort by a key gives a list ascending in the key. -/
theorem pairwise_insertionSort {β : Type} (k : β → Nat) (l : List β) :
    (List.insertionSort (fun x y => k x ≤ k y) l).Pairwise (fun x y => k x ≤ k y) := by
  haveI : IsTotal β (fun x y => k x ≤ k y) := ⟨fun a b => Nat.le_total (k a) (k b)⟩
  haveI : IsTrans β (fun x y => k x ≤ k y) := ⟨fun _ _ _ h1 h2 => Nat.le_trans h1 h2⟩
  exact List.sorted_insertionSort (fun x y => k x ≤ k y) l

/-- A dispatch over a registry of recording consumers appends the consumers
to the log in registry order. -/
theorem dispatch_event_logger {α : Type} :
    ∀ (l : List (α × Nat)) (log : List (α × Nat)),
      dispatch_event (l.map logger) () log = log ++ l
  | [], log => by simp [dispatch_event]
  | c :: t, log => by
    have ih := dispatch_event_logger t (log ++ [c])
    simp only [dispatch_event] at ih
    simp only [dispatch_event, List.map_cons, List.foldl_cons]
    show List.foldl (fun s cb => cb.notify () s) (log ++ [c]) (List.map logger t)
      = log ++ c :: t
    rw [ih]
    simp

/-- The registry of recording consumers bound in the order `l` is the
recording consumers of the stable insertion sort of `l` by priority. -/
theorem bind_all_logger {α : Type} (l : List (α × Nat)) :
    bind_all (l.map logger)
      = (List.insertionSort (fun x y : α × Nat => x.2 ≤ y.2) l).map logger := by
  rw [bind_all_eq_insertionSort]
  exact (List.map_insertionSort (fun x y : α × Nat => x.2 ≤ y.2)
    (fun x y : mac802154_maccb_s Unit Unit (List (α × Nat)) => x.prio ≤ y.prio)
    logger l (fun _ _ _ _ => Iff.rfl)).symm

/-- C14: after any sequence of `mac802154_bind` calls the registry is
ascending in priority and, for every priority, holds the records of that
priority in bind order; a dispatch invokes `notify` of the records in
registry order.  Observed with recording consumers bound in the order `l`:
the log of a dispatch is ascending in priority, lists the consumers of each
priority in bind order and is a rearrangement of `l`.  Binding A (priority
1), B (priority 5), C (priority 1) in that order, a dispatch invokes A, then
C, then B. -/
theorem bind_dispatch_order {α : Type} (cbs : List (mac802154_maccb_s ν ι σ))
    (notif : ν) (st : σ) (l : List (α × Nat)) :
    ((bind_all cbs).Pairwise (fun x y => x.prio ≤ y.prio) ∧
      (∀ p : Nat, (bind_all cbs).filter (fun c => c.prio = p)
        = cbs.filter (fun c => c.prio = p)) ∧
      dispatch_event (bind_all cbs) notif st
        = (bind_all cbs).foldl (fun s cb => cb.notify notif s) st) ∧
    ((dispatch_event (bind_all (l.map logger)) () []).Pairwise (fun x y => x.2 ≤ y.2) ∧
      (∀ p : Nat, (dispatch_event (bind_all (l.map logger)) () []).filter (fun c => c.2 = p)
        = l.filter (fun c => c.2 = p)) ∧
      (dispatch_event (bind_all (l.map logger)) () []).Perm l) ∧
    dispatch_event (bind_all ([("A", 1), ("B", 5), ("C", 1)].map logger)) () []
      = [("A", 1), ("C", 1), ("B", 5)] := by
  have hlog : dispatch_event (bind_all (l.map logger)) () []
      = List.insertionSort (fun x y : α × Nat => x.2 ≤ y.2) l := by
    rw [bind_all_logger, dispatch_event_logger, List.nil_append]
  refine ⟨⟨?_, ?_, rfl⟩, ⟨?_, ?_, ?_⟩, by decide⟩
  · rw [bind_all_eq_insertionSort]
    exact pairwise_insertionSort (fun x : mac802154_maccb_s ν ι σ => x.prio) cbs
  · intro p
    rw [bind_all_eq_insertionSort]
    exact filter_insertionSort (fun x : mac802154_maccb_s ν ι σ => x.prio) p cbs
  · rw [hlog]
    exact pairwise_insertionSort (fun x : α × Nat => x.2) l
  · intro p
    rw [hlog]
    exact filter_insertionSort (fun x : α × Nat => x.2) p l
  · rw [hlog]
    exact List.perm_insertionSort _ l

end Mac802154
